import Mathlib

/-!
# covid19-temperature: cache-backed enrichment pipeline (`index.js`)

A shallow embedding of `index.js` and the properties of its specification.

Conventions of the embedding:

* JavaScript numbers are IEEE 754 doubles.  A finite double is modelled by its rational value, the
  special values `Infinity`, `-Infinity` and `NaN` are kept apart (`JSNum`), and every arithmetic
  operator rounds its exact result to the nearest double, ties to even, overflowing to an infinity
  (`roundDouble`).  The sign of zero is not modelled.
* A JavaScript function that may throw returns `Except Err _`; an `async` function that touches the
  cache or the network also threads the `State` explicitly.
* The collaborators that are not part of the repository (the country table, the geocoder, the
  remote weather service) are fields of `World`, so every theorem holds for every behaviour of
  them.  So is what the two library helpers make of a value that is neither a number nor missing.
* `console.log` has no effect on any result and is left out.
-/

set_option autoImplicit false

namespace Covid19Temperature

/-! ## Numbers -/

/-- A JavaScript number: a finite value, or one of the three special values. -/
inductive JSNum where
  | fin (q : ℚ)
  | posInf
  | negInf
  | nan
  deriving DecidableEq

/-- The global `isNaN` on a number. -/
def JSNum.isNaN : JSNum → Bool
  | .nan => true
  | _ => false

/-- The global `isFinite` on a number. -/
def JSNum.isFinite : JSNum → Bool
  | .fin _ => true
  | _ => false

/-- The finite value of a number, if it has one. -/
def JSNum.finite? : JSNum → Option ℚ
  | .fin q => some q
  | _ => none

/-- The power `2 ^ k` for an integer exponent. -/
def pow2 (k : ℤ) : ℚ :=
  if 0 ≤ k then ((2 ^ k.toNat : ℕ) : ℚ) else 1 / ((2 ^ (-k).toNat : ℕ) : ℚ)

/-- The number of binary digits of `n`, computed with `fuel` halvings at most. -/
def bitLength : Nat → Nat → Nat
  | 0, _ => 0
  | fuel + 1, n => if n = 0 then 0 else bitLength fuel (n / 2) + 1

/-- The binade of a positive rational `a`: the integer `e` with `2 ^ e ≤ a < 2 ^ (e + 1)`. -/
def binade (a : ℚ) : ℤ :=
  let e0 : ℤ := (bitLength a.num.natAbs a.num.natAbs : ℤ) - (bitLength a.den a.den : ℤ)
  if a < pow2 e0 then e0 - 1 else e0

/-- Rounding of a non-negative rational to the nearest integer, a tie going to the even one. -/
def roundHalfEven (x : ℚ) : ℤ :=
  let f := ⌊x⌋
  if x - f < 1 / 2 then f
  else if 1 / 2 < x - f then f + 1
  else if f % 2 = 0 then f else f + 1

/-- Rounding of an exact result to a double: the nearest multiple of the spacing of the doubles
around it (53 significant bits, the exponent kept within `-1022 .. 1023`), ties to even; a result
that reaches `2 ^ 1024` overflows to an infinity. -/
def roundDouble (q : ℚ) : JSNum :=
  if q = 0 then .fin 0
  else
    let a := |q|
    let k := min (max (binade a) (-1022)) 1023 - 52
    let v := (roundHalfEven (a / pow2 k) : ℚ) * pow2 k
    if pow2 1024 ≤ v then (if 0 < q then .posInf else .negInf)
    else .fin (if 0 < q then v else -v)

/-- The operator `a + b`. -/
def jsAdd : JSNum → JSNum → JSNum
  | .fin a, .fin b => roundDouble (a + b)
  | .nan, _ => .nan
  | _, .nan => .nan
  | .posInf, .negInf => .nan
  | .negInf, .posInf => .nan
  | .posInf, _ => .posInf
  | _, .posInf => .posInf
  | .negInf, _ => .negInf
  | _, .negInf => .negInf

/-- The operator `a - b`. -/
def jsSub : JSNum → JSNum → JSNum
  | .fin a, .fin b => roundDouble (a - b)
  | .nan, _ => .nan
  | _, .nan => .nan
  | .posInf, .posInf => .nan
  | .negInf, .negInf => .nan
  | .posInf, _ => .posInf
  | _, .posInf => .negInf
  | .negInf, _ => .negInf
  | _, .negInf => .posInf

/-- The operator `a * b`. -/
def jsMul : JSNum → JSNum → JSNum
  | .fin a, .fin b => roundDouble (a * b)
  | .nan, _ => .nan
  | _, .nan => .nan
  | .fin a, .posInf => if a = 0 then .nan else if 0 < a then .posInf else .negInf
  | .fin a, .negInf => if a = 0 then .nan else if 0 < a then .negInf else .posInf
  | .posInf, .fin b => if b = 0 then .nan else if 0 < b then .posInf else .negInf
  | .negInf, .fin b => if b = 0 then .nan else if 0 < b then .negInf else .posInf
  | .posInf, .posInf => .posInf
  | .negInf, .negInf => .posInf
  | .posInf, .negInf => .negInf
  | .negInf, .posInf => .negInf

/-- The operator `a / b`.  Division by zero does not throw in JavaScript: it yields `Infinity`,
`-Infinity` or (for `0 / 0`) `NaN`. -/
def jsDiv : JSNum → JSNum → JSNum
  | .fin a, .fin b =>
    if b = 0 then (if a = 0 then .nan else if 0 < a then .posInf else .negInf)
    else roundDouble (a / b)
  | .nan, _ => .nan
  | _, .nan => .nan
  | .fin _, .posInf => .fin 0
  | .fin _, .negInf => .fin 0
  | .posInf, .fin b => if 0 ≤ b then .posInf else .negInf
  | .negInf, .fin b => if 0 ≤ b then .negInf else .posInf
  | .posInf, .posInf => .nan
  | .posInf, .negInf => .nan
  | .negInf, .posInf => .nan
  | .negInf, .negInf => .nan

/-! ## Errors -/

/-- The exceptions that the modelled code can raise. -/
inductive Err where
  /-- A property read on `undefined` or `null`, or a failed destructuring. -/
  | typeError
  /-- The `JSON.parse` failure on a stored string that is not JSON. -/
  | syntaxError
  /-- The `new Error("not enough data")` of `calculateMedianGrowthRate`. -/
  | notEnoughData
  /-- The `new Error(data.error)` of `fetchWithCache`. -/
  | responseError
  /-- A rejected promise or an exception of an external collaborator. -/
  | rejected
  deriving DecidableEq

/-! ## The statistics helpers (`stats-lite`)

The package `stats-lite` is a dependency of the program.  Its functions `mean` and `median` first
pass their argument through `numbers`, which drops every entry that is not a finite number. -/

/-- The helper `numbers` of `stats-lite`: it keeps the entries that `isnumber` accepts, which for a
number means the finite ones. -/
def numbers (vals : List JSNum) : List ℚ :=
  vals.filterMap fun v =>
    match v with
    | .fin q => some q
    | _ => none

/-- The helper `sum` of `stats-lite` on a list of finite numbers: a left-to-right accumulation
`total += vals[i]` starting from `0`. -/
def sum (vals : List ℚ) : JSNum :=
  vals.foldl (fun total v => jsAdd total (.fin v)) (.fin 0)

/-- The helper `nsort` of `stats-lite`: ascending numeric sort. -/
def nsort (vals : List ℚ) : List ℚ :=
  vals.insertionSort (fun a b => a ≤ b)

/-- The function `stats.mean`: `NaN` when no finite number is left, else `sum / length`. -/
def mean (vals : List JSNum) : JSNum :=
  let nums := numbers vals
  if nums.length = 0 then .nan
  else jsDiv (sum nums) (.fin (nums.length : ℚ))

/-- The function `stats.median`: `NaN` when no finite number is left, else the middle element of
the sorted numbers (odd length) or the average of the two middle elements (even length). -/
def median (vals : List JSNum) : JSNum :=
  let nums := numbers vals
  if nums.length = 0 then .nan
  else
    let half := nums.length / 2
    let sorted := nsort nums
    if sorted.length % 2 ≠ 0 then
      match sorted[half]? with
      | some m => .fin m
      | none => .nan
    else
      match sorted[half - 1]?, sorted[half]? with
      | some a, some b => jsDiv (jsAdd (.fin a) (.fin b)) (.fin 2)
      | _, _ => .nan

/-! ## The growth-rate analysis -/

/-- A data row of `full_data.csv`, as far as the program reads it: `row[1]` (the entity),
`row[4]` (the cumulative case count: the number that the arithmetic and the comparisons read from
the cell) and `row[6]` (the city hint). -/
structure Row where
  entity : String
  cumulative : ℚ
  city : String
  deriving DecidableEq

/-- The record `{ median, mean }` returned by `calculateMedianGrowthRate`. -/
structure GrowthSummary where
  median : JSNum
  mean : JSNum
  deriving DecidableEq

/-- The `reduce` of `calculateMedianGrowthRate`: index `0` contributes nothing, every later index
appends `(row[4] - countryData[idx - 1][4]) / countryData[idx - 1][4]`. -/
def growthRates (countryData : List Row) : List JSNum :=
  countryData.enum.foldl
    (fun acc p =>
      if p.1 = 0 then acc
      else
        match countryData[p.1 - 1]? with
        | some prev =>
          acc ++ [jsDiv (jsSub (.fin p.2.cumulative) (.fin prev.cumulative))
                    (.fin prev.cumulative)]
        | none => acc)
    []

/-- The function `calculateMedianGrowthRate (country, data)`. -/
def calculateMedianGrowthRate (country : String) (data : List Row) : Except Err GrowthSummary :=
  let countryData := data.filter fun row => decide (row.entity = country)
  match countryData[countryData.length - 1]? with
  | none => .error .typeError
  | some last =>
    let totalCases := last.cumulative
    if totalCases < 75 then .error .notEnoughData
    else
      let rates := growthRates countryData
      .ok { median := median rates, mean := mean rates }

/-! ## JSON documents and the key-value cache -/

/-- A JSON value, as produced by `JSON.parse` and by `response.json()`.  A number literal beyond
the range of the doubles, such as `1e400`, is parsed to an infinity.  The fields of an object are
listed once per key. -/
inductive JSON where
  | null
  | bool (b : Bool)
  | num (n : JSNum)
  | str (s : String)
  | arr (items : List JSON)
  | obj (fields : List (String × JSON))

/-- A JavaScript value read out of a document: `none` stands for `undefined`. -/
abbrev JSVal := Option JSON

/-- Truthiness of a JSON value: `null`, `false`, `0` and the empty string are falsy, every array
and every object is truthy. -/
def JSON.truthy : JSON → Bool
  | .null => false
  | .bool b => b
  | .num (.fin q) => decide (q ≠ 0)
  | .num .nan => false
  | .num _ => true
  | .str s => decide (s ≠ "")
  | .arr _ => true
  | .obj _ => true

/-- Truthiness of a value that may be `undefined`. -/
def JSVal.truthy : JSVal → Bool
  | none => false
  | some j => j.truthy

/-- The property read `j.key` on a value that is neither `null` nor `undefined`: only an object
carries the properties looked up by this program, on any other value the read gives `undefined`. -/
def JSON.prop (j : JSON) (key : String) : JSVal :=
  match j with
  | .obj fields => fields.lookup key
  | _ => none

/-- The test `data.error` of `fetchWithCache` on a value that is not `null`: whether the document
carries a truthy error marker. -/
def JSON.carriesError (j : JSON) : Bool :=
  JSVal.truthy (j.prop "error")

mutual
/-- The value that `JSON.parse` reads back from `JSON.stringify (value)`: a number that is not
finite is written as `null`, everything else is written as it is. -/
def JSON.written : JSON → JSON
  | .null => .null
  | .bool b => .bool b
  | .num (.fin q) => .num (.fin q)
  | .num _ => .null
  | .str s => .str s
  | .arr items => .arr (writtenItems items)
  | .obj fields => .obj (writtenFields fields)
/-- The elements of an array, each as it is written and read back. -/
def writtenItems : List JSON → List JSON
  | [] => []
  | x :: rest => x.written :: writtenItems rest
/-- The fields of an object, each value as it is written and read back. -/
def writtenFields : List (String × JSON) → List (String × JSON)
  | [] => []
  | (key, value) :: rest => (key, value.written) :: writtenFields rest
end

/-- What a key of the store holds: the stored string, classified by what `getValue` does with it.
`blank` is the empty string, `junk` a string on which `JSON.parse` throws, `json v` a string that
parses to `v`. -/
inductive Cell where
  | blank
  | junk
  | json (v : JSON)

/-- The mutable surroundings of a run: the content of the key-value store and the number of live
remote calls issued so far.  The store itself is taken to be reachable: `get` and `set` do not
fail. -/
structure State where
  cache : String → Option Cell
  calls : Nat

/-- The geocoder's first match, as far as it is used: the two coordinates as they are printed into
the request address. -/
structure Coords where
  latitude : String
  longitude : String

/-- The external collaborators and the environment of a run. -/
structure World where
  /-- The expression `wcc.getCountryDetailsByName(country)[0].capital`; `none` when it throws. -/
  capitalOf : String → Option String
  /-- The first match of `geocoder.geocode(query)`; `none` when the call is rejected or the match
  cannot be destructured. -/
  geocode : String → Option Coords
  /-- The live lookup `(await fetch(uri)).json()` as a stub: its answer to the call with the given
  running number for the given address; `none` when it throws. -/
  live : Nat → String → Option JSON
  /-- The environment variable `DARK_SKY_KEY`, as printed into the request address. -/
  darkSkyKey : String
  /-- The result of `fahrenheitToCelsius` on an argument that is present but not a finite number
  (`null`, a boolean, a string, an array, an object, an infinity); `none` when it throws. -/
  celsiusOfOther : JSON → Option JSNum
  /-- The number that `stats-lite` reads from an entry that is a string or a non-empty array, by
  parsing its text; `NaN` when it skips the entry. -/
  numberOfText : JSON → JSNum

/-- The function `getValue (key)`: `null` for a missing key or an empty string, else `JSON.parse`
of the stored string. -/
def getValue (key : String) (s : State) : Except Err JSON :=
  match s.cache key with
  | none => .ok .null
  | some .blank => .ok .null
  | some .junk => .error .syntaxError
  | some (.json v) => .ok v

/-- The function `setValue (key, value)`: stores `JSON.stringify(value)` under the key, a string
that parses to `value.written`. -/
def setValue (key : String) (value : JSON) (s : State) : State :=
  { s with cache := fun k => if k = key then some (.json value.written) else s.cache k }

/-- The live branch of `fetchWithCache`: fetch, decode, throw on an error marker, store. -/
def fetchLive (W : World) (uri : String) (s : State) : Except Err JSON × State :=
  let s1 : State := { s with calls := s.calls + 1 }
  match W.live s.calls uri with
  | none => (.error .rejected, s1)
  | some .null => (.error .typeError, s1)
  | some data =>
    if data.carriesError then (.error .responseError, s1)
    else (.ok data, setValue uri data s1)

/-- The `try` block of `fetchWithCache`. -/
def fetchWithCacheTry (W : World) (uri : String) (s : State) : Except Err JSON × State :=
  match getValue uri s with
  | .error e => (.error e, s)
  | .ok data =>
    if !data.truthy || data.carriesError then fetchLive W uri s
    else (.ok data, s)

/-- The function `fetchWithCache (uri)`: the `try` block, with every exception turned into the
result `null`. -/
def fetchWithCache (W : World) (uri : String) (s : State) : Except Err JSON × State :=
  match fetchWithCacheTry W uri s with
  | (.ok data, s1) => (.ok data, s1)
  | (.error _, s1) => (.ok .null, s1)

/-! ## The weather aggregation -/

/-- The function `getAllTimesFebruar ()`: the 29 sample timestamps. -/
def getAllTimesFebruar : List String :=
  (List.range 29).map fun idx =>
    "2020-02-" ++ (if idx < 9 then "0" else "") ++ toString (idx + 1) ++ "T12:00:00"

/-- The request addresses built by `getCapitalAverageTemperatureFebrurary`. -/
def weatherUris (W : World) (loc : Coords) : List String :=
  getAllTimesFebruar.map fun t =>
    "https://api.darksky.net/forecast/" ++ W.darkSkyKey ++ "/" ++ loc.latitude ++ ","
      ++ loc.longitude ++ "," ++ t ++ "?exclude=daily,flags,minutely,daily,alerts"

/-- The destructuring `const { currently: { temperature, humidity } } = doc`: it throws when the
document or its `currently` is `null` or `undefined`. -/
def destructureCurrently (doc : JSON) : Except Err (JSVal × JSVal) :=
  match doc with
  | .null => .error .typeError
  | d =>
    match d.prop "currently" with
    | none => .error .typeError
    | some .null => .error .typeError
    | some c => .ok (c.prop "temperature", c.prop "humidity")

/-- The function `fahrenheitToCelsius`: `(f - 32) * 5 / 9` on a finite number; it throws when its
argument is missing. -/
def fahrenheitToCelsius (W : World) (v : JSVal) : Except Err JSNum :=
  match v with
  | none => .error .typeError
  | some (.num (.fin f)) => .ok (jsDiv (jsMul (jsSub (.fin f) (.fin 32)) (.fin 5)) (.fin 9))
  | some other =>
    match W.celsiusOfOther other with
    | some c => .ok c
    | none => .error .typeError

/-- The entry of `humids` as `stats-lite` reads it: a number as it is; nothing (`NaN`, which is
dropped like every value that is not a finite number) for a missing value, `null`, a boolean, an
object or the empty array; the number parsed from its text for a string or a non-empty array. -/
def statsNumber (W : World) (v : JSVal) : JSNum :=
  match v with
  | none => .nan
  | some (.num n) => n
  | some .null => .nan
  | some (.bool _) => .nan
  | some (.obj _) => .nan
  | some (.arr []) => .nan
  | some other => W.numberOfText other

/-- The first two statements of the `try` inside the loop of
`getCapitalAverageTemperatureFebrurary`, after the lookup: the destructuring and the conversion. The
result is the pair that is then pushed onto `temps` and `humids`. -/
def readSample (W : World) (doc : JSON) : Except Err (JSNum × JSVal) :=
  match destructureCurrently doc with
  | .error e => .error e
  | .ok (temperature, humidity) =>
    match fahrenheitToCelsius W temperature with
    | .error e => .error e
    | .ok c => .ok (c, humidity)

/-- The loop `for (const uri of uris)` of `getCapitalAverageTemperatureFebrurary`: an exception in
the body is caught and the sample is skipped. -/
def weatherLoop (W : World) :
    List String → List JSNum → List JSVal → State → List JSNum × List JSVal × State
  | [], temps, humids, s => (temps, humids, s)
  | uri :: rest, temps, humids, s =>
    match fetchWithCache W uri s with
    | (.error _, s1) => weatherLoop W rest temps humids s1
    | (.ok doc, s1) =>
      match readSample W doc with
      | .error _ => weatherLoop W rest temps humids s1
      | .ok (c, humidity) => weatherLoop W rest (temps ++ [c]) (humids ++ [humidity]) s1

/-- The function `getCapitalAverageTemperatureFebrurary ({ longitude, latitude })`: it returns the
pair `[averageTemp, averageHumid]`. -/
def getCapitalAverageTemperatureFebrurary (W : World) (loc : Coords) (s : State) :
    Except Err (JSNum × JSNum) × State :=
  match weatherLoop W (weatherUris W loc) [] [] s with
  | (temps, humids, s1) =>
    let averageTemp := mean temps
    let averageHumid := mean (humids.map (statsNumber W))
    (.ok (averageTemp, averageHumid), s1)

/-! ## The per-entity pipeline and the run -/

/-- An entry of `countries`, as built by `parseData`. -/
structure Entity where
  country : String
  city : String
  totalCases : ℚ
  deriving DecidableEq

/-- The record returned by `processCountry` and written by `saveData`. -/
structure Record where
  country : String
  capital : String
  mean : JSNum
  median : JSNum
  temp : JSNum
  humid : JSNum
  totalCases : ℚ
  deriving DecidableEq

/-- The table `overrideCountryCity`, read with a country name as key.  The properties that the
object inherits (such as `constructor`) are not modelled. -/
def overrideCountryCity (country : String) : Option String :=
  if country = "China" then some "Wuhan"
  else if country = "Philippines" then some "Manila"
  else if country = "Czech Republic" then some "Prague"
  else none

/-- The first step of `processCountry`: the override table, else the country table. -/
def resolveCapital (W : World) (country : String) : Except Err String :=
  match overrideCountryCity country with
  | some capital => .ok capital
  | none =>
    match W.capitalOf country with
    | some capital => .ok capital
    | none => .error .typeError

/-- The `try` block of `processCountry`. -/
def processCountryTry (W : World) (e : Entity) (data : List Row) (s : State) :
    Except Err Record × State :=
  match resolveCapital W e.country with
  | .error err => (.error err, s)
  | .ok capital =>
    match W.geocode (capital ++ ", " ++ e.country) with
    | none => (.error .rejected, s)
    | some loc =>
      match calculateMedianGrowthRate e.country data with
      | .error err => (.error err, s)
      | .ok g =>
        match getCapitalAverageTemperatureFebrurary W loc s with
        | (.error err, s1) => (.error err, s1)
        | (.ok (temp, humid), s1) =>
          (.ok { country := e.country, capital := capital, mean := g.mean, median := g.median,
                 temp := temp, humid := humid, totalCases := e.totalCases }, s1)

/-- The function `processCountry ({ country, totalCases }, data)`: the record, or `null` (here
`none`) when the `try` block threw. -/
def processCountry (W : World) (e : Entity) (data : List Row) (s : State) :
    Except Err (Option Record) × State :=
  match processCountryTry W e data s with
  | (.ok r, s1) => (.ok (some r), s1)
  | (.error _, s1) => (.ok none, s1)

/-- The assignment `countries[row[1]] = entry`, with `countries` kept in the order of
`Object.values`: a new key goes to the end, an existing key keeps its place and takes the new
entry.  Keys that look like array indices, which JavaScript lists first, are not modelled. -/
def assignCountry (entry : Entity) : List Entity → List Entity
  | [] => [entry]
  | x :: rest =>
    if x.country = entry.country then entry :: rest else x :: assignCountry entry rest

/-- The function `parseData ()` on the data rows of the file (the header row already skipped): the
rows with more than 4 cumulative cases, and one entry per entity among them. -/
def parseData (rows : List Row) : List Row × List Entity :=
  rows.foldl
    (fun acc row =>
      if row.cumulative > 4 then
        (acc.1 ++ [row],
          assignCountry { country := row.entity, city := row.city, totalCases := row.cumulative }
            acc.2)
      else acc)
    ([], [])

/-- The loop `for (country of countries)` of `processAll`: the result of every call is pushed, a
call that throws pushes nothing. -/
def processLoop (W : World) (data : List Row) :
    List Entity → List (Option Record) → State → List (Option Record) × State
  | [], result, s => (result, s)
  | e :: rest, result, s =>
    match processCountry W e data s with
    | (.ok d, s1) => processLoop W data rest (result ++ [d]) s1
    | (.error _, s1) => processLoop W data rest result s1

/-- The filter `result.filter(Boolean).filter(row => !isNaN(row.median))`. -/
def keepValid (result : List (Option Record)) : List Record :=
  (result.filterMap id).filter fun row => !row.median.isNaN

/-- The function `processAll ()`: the collection that is handed to `saveData`, and the state after
the run. -/
def processAll (W : World) (rows : List Row) (s : State) : List Record × State :=
  match parseData rows with
  | (data, countries) =>
    match processLoop W data countries [] s with
    | (result, s1) => (keepValid result, s1)

/-! ## Notions used to state the properties -/

deriving instance DecidableEq for Except

/-- The rows of one entity, in load order: the `filter` at the head of
`calculateMedianGrowthRate`. -/
def rowsOf (country : String) (data : List Row) : List Row :=
  data.filter fun row => decide (row.entity = country)

/-- The growth values of a sequence of cumulative counts, pair by pair: every count after the
first contributes the double `(curr - prev) / prev`. -/
def consecutiveGrowth : List ℚ → List JSNum
  | prev :: curr :: rest =>
    jsDiv (jsSub (.fin curr) (.fin prev)) (.fin prev) :: consecutiveGrowth (curr :: rest)
  | _ => []

/-- The finite values of a sequence of numbers, in order. -/
def finiteValues (vals : List JSNum) : List ℚ :=
  vals.filterMap JSNum.finite?

/-- A median of a sequence: at least half of the values are at most `m` and at least half of the
values are at least `m`. -/
def IsMedianOf (m : ℚ) (l : List ℚ) : Prop :=
  l.length ≤ 2 * l.countP (fun x => decide (x ≤ m)) ∧
    l.length ≤ 2 * l.countP (fun x => decide (m ≤ x))

/-- The value at position `k` (counted from `0`) of a sequence in ascending order: the value that
has at most `k` values below it and more than `k` values not above it. -/
def orderStatistic (l : List ℚ) (k : Nat) : Option ℚ :=
  l.find? fun x =>
    decide (l.countP (fun y => decide (y < x)) ≤ k ∧ k < l.countP (fun y => decide (y ≤ x)))

/-- The median of a sequence of finite values as a double: `NaN` for the empty sequence, the
middle value in ascending order for an odd count, the double average `(a + b) / 2` of the two
middle values for an even count. -/
def middleValue (l : List ℚ) : JSNum :=
  if l = [] then .nan
  else if l.length % 2 = 1 then
    match orderStatistic l (l.length / 2) with
    | some m => .fin m
    | none => .nan
  else
    match orderStatistic l (l.length / 2 - 1), orderStatistic l (l.length / 2) with
    | some a, some b => jsDiv (jsAdd (.fin a) (.fin b)) (.fin 2)
    | _, _ => .nan

/-- The running sum of a sequence in double arithmetic, the values added one after the other to
the total so far. -/
def runningSum (total : JSNum) : List ℚ → JSNum
  | [] => total
  | x :: rest => runningSum (jsAdd total (.fin x)) rest

/-- The mean of a sequence of finite values as a double: `NaN` for the empty sequence, else the
running sum from `0` divided by the number of values. -/
def doubleMean (l : List ℚ) : JSNum :=
  if l = [] then .nan else jsDiv (runningSum (.fin 0) l) (.fin (l.length : ℚ))

/-- Whether a call of `fetchWithCache` reaches the live lookup: the store yields nothing usable
for the key (no value, a falsy value, or a value with an error marker). -/
def performsLive (uri : String) (s : State) : Bool :=
  match getValue uri s with
  | .ok data => !data.truthy || data.carriesError
  | .error _ => false

/-- A failed live lookup: the call throws, or it returns a document carrying an error marker. -/
def liveFails (answer : Option JSON) : Bool :=
  match answer with
  | none => true
  | some data => data.carriesError

/-- The results of the lookups of a sequence of addresses, one `fetchWithCache` call after the
other. -/
def lookups (W : World) : List String → State → List (Except Err JSON)
  | [], _ => []
  | uri :: rest, s => (fetchWithCache W uri s).1 :: lookups W rest (fetchWithCache W uri s).2

/-- The state after the lookups of a sequence of addresses. -/
def stateAfterLookups (W : World) : List String → State → State
  | [], s => s
  | uri :: rest, s => stateAfterLookups W rest (fetchWithCache W uri s).2

/-- A failed sample: the lookup gave no document with a `currently` part, so that the body of the
loop throws at the destructuring. -/
def lookupFails (r : Except Err JSON) : Bool :=
  match r with
  | .error _ => true
  | .ok doc =>
    match destructureCurrently doc with
    | .error _ => true
    | .ok _ => false

/-- The `currently` part of a looked-up document, if there is one: none for a failed lookup, for a
document without the property and for a `currently` that is `null`. -/
def currentlyPart (r : Except Err JSON) : Option JSON :=
  match r with
  | .error _ => none
  | .ok doc =>
    match doc.prop "currently" with
    | some .null => none
    | part => part

/-- The temperature in Celsius of a temperature in Fahrenheit, in double arithmetic. -/
def celsius (f : ℚ) : JSNum :=
  jsDiv (jsMul (jsSub (.fin f) (.fin 32)) (.fin 5)) (.fin 9)

/-- The Celsius value that a temperature field contributes: none for a missing temperature, the
conversion for a finite number, and what the conversion library makes of any other value. -/
def celsiusOfField (W : World) (temperature : JSVal) : Option JSNum :=
  match temperature with
  | none => none
  | some (.num (.fin f)) => some (celsius f)
  | some other => W.celsiusOfOther other

/-- The number that a humidity field contributes: the number itself, nothing for a missing value,
`null`, a boolean, an object or the empty array, and the number that the statistics library parses
from a string or a non-empty array. -/
def numberOfField (W : World) (humidity : JSVal) : JSNum :=
  match humidity with
  | some (.num n) => n
  | some (.str s) => W.numberOfText (.str s)
  | some (.arr (x :: rest)) => W.numberOfText (.arr (x :: rest))
  | _ => .nan

/-- The Celsius value with which a lookup enters the temperature average, if it does: the lookup
gave a `currently` part, its temperature was converted, and the result is finite. -/
def countedTemperature (W : World) (r : Except Err JSON) : Option ℚ :=
  match currentlyPart r with
  | none => none
  | some part =>
    match celsiusOfField W (part.prop "temperature") with
    | none => none
    | some c => c.finite?

/-- The humidity with which a lookup enters the humidity average, if it does: the lookup gave a
`currently` part, its temperature was converted (whatever the result), and its humidity is a finite
number. -/
def countedHumidity (W : World) (r : Except Err JSON) : Option ℚ :=
  match currentlyPart r with
  | none => none
  | some part =>
    match celsiusOfField W (part.prop "temperature") with
    | none => none
    | some _ => (numberOfField W (part.prop "humidity")).finite?

/-- A complete sample: the lookup gave a `currently` part whose temperature and humidity are
finite numbers, and the converted temperature is finite. -/
def completeSample (r : Except Err JSON) : Bool :=
  match currentlyPart r with
  | none => false
  | some part =>
    match part.prop "temperature", part.prop "humidity" with
    | some (.num (.fin f)), some (.num (.fin _)) => (celsius f).isFinite
    | _, _ => false

/-- The pair that the body of the weather loop pushes for a lookup result, if it pushes one. -/
def pushedSample (W : World) (r : Except Err JSON) : Option (JSNum × JSVal) :=
  match r with
  | .error _ => none
  | .ok doc =>
    match readSample W doc with
    | .error _ => none
    | .ok p => some p

/-- An entity fails before the weather step: capital resolution, geocoding or the growth-rate
analysis throws. -/
def failsBeforeWeather (W : World) (country : String) (data : List Row) : Bool :=
  match resolveCapital W country with
  | .error _ => true
  | .ok capital =>
    match W.geocode (capital ++ ", " ++ country) with
    | none => true
    | some _ =>
      match calculateMedianGrowthRate country data with
      | .error _ => true
      | .ok _ => false

/-- The entries of `countries` built from the kept rows. -/
def entitiesOf (data : List Row) : List Entity :=
  data.foldl
    (fun acc row =>
      assignCountry { country := row.entity, city := row.city, totalCases := row.cumulative } acc)
    []

/-! ## Sample inputs -/

/-- A data row of entity `X` with the given cumulative count. -/
def rowX (c : ℚ) : Row := { entity := "X", cumulative := c, city := "" }

/-- The empty store, before any live call. -/
def emptyState : State := { cache := fun _ => none, calls := 0 }

/-- A world in which every entity has a capital and coordinates and every live lookup fails. -/
def offlineWorld : World :=
  { capitalOf := fun _ => some "Capital"
    geocode := fun _ => some { latitude := "1", longitude := "2" }
    live := fun _ _ => none
    darkSkyKey := "key"
    celsiusOfOther := fun _ => none
    numberOfText := fun _ => .nan }

/-- A weather document with 68 degrees Fahrenheit and humidity one half. -/
def mildDoc : JSON :=
  .obj [("currently", .obj [("temperature", .num (.fin 68)), ("humidity", .num (.fin (1 / 2)))])]

/-- A weather document with 32 degrees Fahrenheit and no humidity. -/
def dryDoc : JSON :=
  .obj [("currently", .obj [("temperature", .num (.fin 32))])]

/-- A world in which every third live lookup fails (10 of the 29 of one entity) and every other
one answers with `mildDoc`. -/
def flakyWorld : World :=
  { offlineWorld with live := fun n _ => if n % 3 = 0 then none else some mildDoc }

/-- A world in which every third live lookup (10 of the 29 of one entity) answers with `dryDoc`
and every other one with `mildDoc`. -/
def halfDryWorld : World :=
  { offlineWorld with live := fun n _ => if n % 3 = 0 then some dryDoc else some mildDoc }

/-- A live-lookup stub that answers its first call with the document `0` and every later call
with the document `1`. -/
def countingWorld : World :=
  { offlineWorld with
    live := fun n _ => if n = 0 then some (.num (.fin 0)) else some (.num (.fin 1)) }

/-- A live-lookup stub that fails on its first call and answers every later call with an object
document. -/
def recoveringWorld : World :=
  { offlineWorld with
    live := fun n _ => if n = 0 then none else some (.obj [("currently", .obj [])]) }

/-- A weather document whose temperature was sent as `1e400` and parsed to `Infinity`. -/
def hugeDoc : JSON :=
  .obj [("currently", .obj [("temperature", .num .posInf), ("humidity", .num (.fin (1 / 2)))])]

/-- A live-lookup stub that answers every call with `hugeDoc`. -/
def hugeWorld : World :=
  { offlineWorld with live := fun _ _ => some hugeDoc }

/-- Fourteen rows of entity `X` whose cumulative counts alternate between `5` and
`3 * 2 ^ 1022`. -/
def alternatingRows : List Row :=
  (List.range 14).map fun i => rowX (if i % 2 = 0 then 5 else 3 * 2 ^ 1022)

/-! ## Lemmas on double arithmetic -/

theorem pow2_eq_zpow (k : ℤ) : pow2 k = (2 : ℚ) ^ k := by
  unfold pow2
  split_ifs with h
  · obtain ⟨n, rfl⟩ := Int.eq_ofNat_of_zero_le h
    simp
  · obtain ⟨n, hn⟩ : ∃ n : ℕ, k = -(n : ℤ) := ⟨(-k).toNat, by omega⟩
    subst hn
    simp

theorem pow2_pos (k : ℤ) : 0 < pow2 k := by
  rw [pow2_eq_zpow]
  positivity

theorem pow2_lt_pow2 (a b : ℤ) (h : a < b) : pow2 a < pow2 b := by
  rw [pow2_eq_zpow, pow2_eq_zpow]
  exact zpow_lt_zpow_right₀ (by norm_num) h

theorem pow2_le_pow2 (a b : ℤ) (h : a ≤ b) : pow2 a ≤ pow2 b := by
  rw [pow2_eq_zpow, pow2_eq_zpow]
  exact zpow_le_zpow_right₀ (by norm_num) h

theorem pow2_add (a b : ℤ) : pow2 (a + b) = pow2 a * pow2 b := by
  rw [pow2_eq_zpow, pow2_eq_zpow, pow2_eq_zpow]
  exact zpow_add₀ (by norm_num) a b

theorem pow2_succ (a : ℤ) : pow2 (a + 1) = 2 * pow2 a := by
  rw [pow2_add, mul_comm]
  congr 1

theorem roundHalfEven_nonneg (x : ℚ) (h : 0 ≤ x) : 0 ≤ roundHalfEven x := by
  have hf : 0 ≤ ⌊x⌋ := Int.floor_nonneg.mpr h
  unfold roundHalfEven
  simp only []
  split_ifs <;> omega

theorem roundHalfEven_le (x : ℚ) (N : ℤ) (h : x ≤ N) : roundHalfEven x ≤ N := by
  have hfx : (⌊x⌋ : ℚ) ≤ x := Int.floor_le x
  have hf : ⌊x⌋ ≤ N := by
    have : (⌊x⌋ : ℚ) ≤ N := le_trans hfx h
    exact_mod_cast this
  have hstep : ¬ (x - ⌊x⌋ < 1 / 2) → ⌊x⌋ + 1 ≤ N := by
    intro hn
    by_contra hc
    have h1 : N ≤ ⌊x⌋ := by omega
    have h2 : (N : ℚ) ≤ ⌊x⌋ := by exact_mod_cast h1
    apply hn
    linarith
  unfold roundHalfEven
  simp only []
  split_ifs with h1 h2 h3
  · exact hf
  · exact hstep h1
  · exact hf
  · exact hstep h1

/-- The shape of every rounding: a non-negative multiple `v` of a power of two not above
`2 ^ 971`, which overflows when it reaches `2 ^ 1024`. -/
theorem roundDouble_shape (q : ℚ) (hq : q ≠ 0) :
    ∃ (k r : ℤ), k ≤ 971 ∧ 0 ≤ r ∧ r = roundHalfEven (|q| / pow2 k) ∧
      roundDouble q =
        if pow2 1024 ≤ (r : ℚ) * pow2 k then (if 0 < q then .posInf else .negInf)
        else .fin (if 0 < q then (r : ℚ) * pow2 k else -((r : ℚ) * pow2 k)) := by
  refine ⟨min (max (binade |q|) (-1022)) 1023 - 52,
    roundHalfEven (|q| / pow2 (min (max (binade |q|) (-1022)) 1023 - 52)), ?_, ?_, rfl, ?_⟩
  · have := min_le_right (max (binade |q|) (-1022)) (1023 : ℤ)
    omega
  · exact roundHalfEven_nonneg _ (div_nonneg (abs_nonneg q) (le_of_lt (pow2_pos _)))
  · unfold roundDouble
    simp only [hq, if_false]

theorem roundDouble_ne_nan (q : ℚ) : roundDouble q ≠ .nan := by
  by_cases hq : q = 0
  · subst hq; simp [roundDouble]
  · obtain ⟨k, r, _, _, _, h⟩ := roundDouble_shape q hq
    rw [h]
    split_ifs <;> simp

theorem roundDouble_fin_lt (q v : ℚ) (h : roundDouble q = .fin v) : |v| < pow2 1024 := by
  by_cases hq : q = 0
  · subst hq
    simp only [roundDouble, if_true, JSNum.fin.injEq] at h
    rw [← h, abs_zero]
    exact pow2_pos _
  · obtain ⟨k, r, _, hr, _, hs⟩ := roundDouble_shape q hq
    rw [hs] at h
    have hv : 0 ≤ (r : ℚ) * pow2 k :=
      mul_nonneg (by exact_mod_cast hr) (le_of_lt (pow2_pos _))
    split_ifs at h with h1 h2 h2
    · simp only [JSNum.fin.injEq] at h
      rw [← h, abs_of_nonneg hv]
      exact lt_of_not_le h1
    · simp only [JSNum.fin.injEq] at h
      rw [← h, abs_neg, abs_of_nonneg hv]
      exact lt_of_not_le h1

/-- A result within `2 ^ K`, for an exponent `K` at the top of the range, rounds to a finite
double within `2 ^ K`. -/
theorem roundDouble_bound (q : ℚ) (K : ℤ) (hK1 : 971 ≤ K) (hK2 : K ≤ 1023)
    (h : |q| ≤ pow2 K) : ∃ v, roundDouble q = .fin v ∧ |v| ≤ pow2 K := by
  by_cases hq : q = 0
  · subst hq
    exact ⟨0, by simp [roundDouble], by rw [abs_zero]; exact le_of_lt (pow2_pos _)⟩
  · obtain ⟨k, r, hk, hr, hrr, hs⟩ := roundDouble_shape q hq
    obtain ⟨n, hn⟩ : ∃ n : ℕ, K - k = (n : ℤ) := ⟨(K - k).toNat, by omega⟩
    have hKk : pow2 K = ((2 ^ n : ℤ) : ℚ) * pow2 k := by
      have : K = (n : ℤ) + k := by omega
      rw [this, pow2_add, pow2_eq_zpow (n : ℤ)]
      simp
    have hx : |q| / pow2 k ≤ ((2 ^ n : ℤ) : ℚ) := by
      rw [div_le_iff₀ (pow2_pos k), ← hKk]
      exact h
    have hrN : r ≤ 2 ^ n := by
      rw [hrr]
      exact roundHalfEven_le _ _ hx
    have hv : (r : ℚ) * pow2 k ≤ pow2 K := by
      rw [hKk]
      exact mul_le_mul_of_nonneg_right (by exact_mod_cast hrN) (le_of_lt (pow2_pos k))
    have hv0 : 0 ≤ (r : ℚ) * pow2 k :=
      mul_nonneg (by exact_mod_cast hr) (le_of_lt (pow2_pos _))
    have hlt : ¬ pow2 1024 ≤ (r : ℚ) * pow2 k :=
      not_le.mpr (lt_of_le_of_lt hv (pow2_lt_pow2 K 1024 (by omega)))
    rw [hs, if_neg hlt]
    refine ⟨_, rfl, ?_⟩
    split_ifs
    · rw [abs_of_nonneg hv0]; exact hv
    · rw [abs_neg, abs_of_nonneg hv0]; exact hv

theorem jsAdd_fin_ne_nan (total : JSNum) (v : ℚ) (h : total ≠ .nan) :
    jsAdd total (.fin v) ≠ .nan := by
  cases total with
  | fin a => exact roundDouble_ne_nan _
  | posInf => simp [jsAdd]
  | negInf => simp [jsAdd]
  | nan => exact absurd rfl h

theorem jsDiv_fin_pos_ne_nan (total : JSNum) (n : ℚ) (hn : 0 < n) (h : total ≠ .nan) :
    jsDiv total (.fin n) ≠ .nan := by
  cases total with
  | fin a =>
    simp only [jsDiv, ne_of_gt hn, if_false]
    exact roundDouble_ne_nan _
  | posInf => simp [jsDiv, le_of_lt hn]
  | negInf => simp [jsDiv, le_of_lt hn]
  | nan => exact absurd rfl h

/-! ## Lemmas on the statistics helpers -/

theorem numbers_eq_finiteValues (vals : List JSNum) : numbers vals = finiteValues vals := by
  unfold numbers finiteValues
  congr 1

theorem numbers_map_fin (l : List ℚ) : numbers (l.map JSNum.fin) = l := by
  induction l with
  | nil => rfl
  | cons a t ih =>
    simp only [numbers, List.map_cons, List.filterMap_cons] at ih ⊢
    rw [ih]

theorem foldl_eq_runningSum (l : List ℚ) :
    ∀ total : JSNum,
      l.foldl (fun total v => jsAdd total (.fin v)) total = runningSum total l := by
  induction l with
  | nil => intro total; rfl
  | cons x rest ih => intro total; simp only [List.foldl_cons, runningSum, ih]

theorem mean_eq_doubleMean (vals : List JSNum) : mean vals = doubleMean (finiteValues vals) := by
  unfold mean doubleMean sum
  simp only [numbers_eq_finiteValues, foldl_eq_runningSum]
  by_cases h : finiteValues vals = []
  · simp [h]
  · have hlen : (finiteValues vals).length ≠ 0 := by simpa using h
    simp [h, hlen]

theorem sorted_countP_le (s : List ℚ) (hs : s.Sorted (fun a b => a ≤ b)) (k : Nat) (hk : k < s.length)
    (m : ℚ) (hm : s[k] ≤ m) : k + 1 ≤ s.countP (fun x => decide (x ≤ m)) := by
  have hall : ∀ a ∈ s.take (k + 1), (fun x => decide (x ≤ m)) a = true := by
    intro a ha
    obtain ⟨i, hi, rfl⟩ := List.mem_take_iff_getElem.mp ha
    have hik : i ≤ k := by
      have := lt_min_iff.mp hi
      omega
    have h1 : s[i] ≤ s[k] := by
      rcases Nat.lt_or_eq_of_le hik with h | h
      · exact (List.pairwise_iff_getElem.mp hs) i k _ hk h
      · subst h; exact le_refl _
    simpa using le_trans h1 hm
  have h1 : (s.take (k + 1)).countP (fun x => decide (x ≤ m)) = (s.take (k + 1)).length :=
    List.countP_eq_length.mpr hall
  have h2 : (s.take (k + 1)).countP (fun x => decide (x ≤ m)) ≤ s.countP (fun x => decide (x ≤ m)) :=
    (List.take_sublist _ _).countP_le _
  have h3 : (s.take (k + 1)).length = k + 1 := by
    rw [List.length_take]; omega
  omega

theorem sorted_countP_ge (s : List ℚ) (hs : s.Sorted (fun a b => a ≤ b)) (k : Nat) (hk : k < s.length)
    (m : ℚ) (hm : m ≤ s[k]) : s.length - k ≤ s.countP (fun x => decide (m ≤ x)) := by
  have hall : ∀ a ∈ s.drop k, (fun x => decide (m ≤ x)) a = true := by
    intro a ha
    obtain ⟨i, hi, rfl⟩ := List.mem_drop_iff_getElem.mp ha
    have h1 : s[k] ≤ s[k + i] := by
      rcases Nat.eq_zero_or_pos i with h | h
      · subst h; exact le_refl _
      · exact (List.pairwise_iff_getElem.mp hs) k (k + i) hk (by omega) (by omega)
    simpa using le_trans hm h1
  have h1 : (s.drop k).countP (fun x => decide (m ≤ x)) = (s.drop k).length :=
    List.countP_eq_length.mpr hall
  have h2 : (s.drop k).countP (fun x => decide (m ≤ x)) ≤ s.countP (fun x => decide (m ≤ x)) :=
    (List.drop_sublist _ _).countP_le _
  have h3 : (s.drop k).length = s.length - k := List.length_drop _ _
  omega

theorem sorted_countP_lt (s : List ℚ) (hs : s.Sorted (fun a b => a ≤ b)) (k : Nat)
    (hk : k < s.length) : s.countP (fun x => decide (x < s[k])) ≤ k := by
  have hzero : (s.drop k).countP (fun x => decide (x < s[k])) = 0 := by
    rw [List.countP_eq_zero]
    intro a ha
    obtain ⟨i, hi, rfl⟩ := List.mem_drop_iff_getElem.mp ha
    have h1 : s[k] ≤ s[k + i] := by
      rcases Nat.eq_zero_or_pos i with h | h
      · subst h; exact le_refl _
      · exact (List.pairwise_iff_getElem.mp hs) k (k + i) hk (by omega) (by omega)
    simpa using h1
  have hsplit : s.countP (fun x => decide (x < s[k])) =
      (s.take k).countP (fun x => decide (x < s[k])) +
        (s.drop k).countP (fun x => decide (x < s[k])) := by
    rw [← List.countP_append, List.take_append_drop]
  have hle : (s.take k).countP (fun x => decide (x < s[k])) ≤ (s.take k).length :=
    List.countP_le_length _
  have hlen : (s.take k).length ≤ k := by
    rw [List.length_take]; exact min_le_left _ _
  omega

theorem orderStatistic_of_sorted (l s : List ℚ) (hp : s.Perm l)
    (hs : s.Sorted (fun a b => a ≤ b)) (k : Nat) (hk : k < s.length) :
    orderStatistic l k = some s[k] := by
  have hc1 : ∀ x : ℚ, l.countP (fun y => decide (y < x)) = s.countP (fun y => decide (y < x)) :=
    fun x => (hp.countP_eq _).symm
  have hc2 : ∀ x : ℚ, l.countP (fun y => decide (y ≤ x)) = s.countP (fun y => decide (y ≤ x)) :=
    fun x => (hp.countP_eq _).symm
  have hgood : s.countP (fun y => decide (y < s[k])) ≤ k ∧
      k < s.countP (fun y => decide (y ≤ s[k])) :=
    ⟨sorted_countP_lt s hs k hk, by
      have := sorted_countP_le s hs k hk _ (le_refl _)
      omega⟩
  have hmem : s[k] ∈ l := hp.subset (List.getElem_mem hk)
  have huniq : ∀ x : ℚ, (s.countP (fun y => decide (y < x)) ≤ k ∧
      k < s.countP (fun y => decide (y ≤ x))) → x = s[k] := by
    intro x hx
    rcases lt_trichotomy x s[k] with h | h | h
    · exfalso
      have hmono : s.countP (fun y => decide (y ≤ x)) ≤ s.countP (fun y => decide (y < s[k])) :=
        List.countP_mono_left (fun y _ hy => by
          simp only [decide_eq_true_eq] at hy ⊢
          exact lt_of_le_of_lt hy h)
      omega
    · exact h
    · exfalso
      have hmono : s.countP (fun y => decide (y ≤ s[k])) ≤ s.countP (fun y => decide (y < x)) :=
        List.countP_mono_left (fun y _ hy => by
          simp only [decide_eq_true_eq] at hy ⊢
          exact lt_of_le_of_lt hy h)
      omega
  unfold orderStatistic
  simp only [hc1, hc2]
  cases hf : l.find? (fun x => decide (s.countP (fun y => decide (y < x)) ≤ k ∧
      k < s.countP (fun y => decide (y ≤ x)))) with
  | none =>
    exfalso
    have := List.find?_eq_none.mp hf s[k] hmem
    simp only [decide_eq_true_eq] at this
    exact this hgood
  | some y =>
    have hy := List.find?_some hf
    simp only [decide_eq_true_eq] at hy
    rw [huniq y hy]

theorem median_eq_middleValue (vals : List JSNum) :
    median vals = middleValue (finiteValues vals) := by
  unfold median middleValue
  simp only [numbers_eq_finiteValues]
  generalize finiteValues vals = N
  by_cases hN : N = []
  · simp [hN]
  · have hlen : N.length ≠ 0 := by simpa using hN
    have hs : (nsort N).Sorted (fun a b => a ≤ b) := List.sorted_insertionSort _ _
    have hp : (nsort N).Perm N := List.perm_insertionSort _ _
    have hl : (nsort N).length = N.length := hp.length_eq
    simp only [hlen, if_false, hN, hl]
    have hk : N.length / 2 < (nsort N).length := by omega
    by_cases hodd : N.length % 2 = 1
    · have h1 : N.length % 2 ≠ 0 := by omega
      rw [if_pos h1, if_pos hodd, List.getElem?_eq_getElem hk,
        orderStatistic_of_sorted N _ hp hs _ hk]
    · have h1 : ¬ N.length % 2 ≠ 0 := by omega
      have hk1 : N.length / 2 - 1 < (nsort N).length := by omega
      rw [if_neg h1, if_neg hodd, List.getElem?_eq_getElem hk, List.getElem?_eq_getElem hk1,
        orderStatistic_of_sorted N _ hp hs _ hk, orderStatistic_of_sorted N _ hp hs _ hk1]

theorem middleValue_odd_isMedian (l : List ℚ) (hodd : l.length % 2 = 1) :
    ∃ m, middleValue l = .fin m ∧ IsMedianOf m l := by
  have hN : l ≠ [] := by
    intro h; subst h; simp at hodd
  have hs : (nsort l).Sorted (fun a b => a ≤ b) := List.sorted_insertionSort _ _
  have hp : (nsort l).Perm l := List.perm_insertionSort _ _
  have hl : (nsort l).length = l.length := hp.length_eq
  have hk : l.length / 2 < (nsort l).length := by omega
  refine ⟨(nsort l)[l.length / 2], ?_, ?_, ?_⟩
  · unfold middleValue
    rw [if_neg hN, if_pos hodd, orderStatistic_of_sorted l _ hp hs _ hk]
  · rw [← hp.countP_eq]
    have := sorted_countP_le (nsort l) hs _ hk _ (le_refl _)
    omega
  · rw [← hp.countP_eq]
    have := sorted_countP_ge (nsort l) hs _ hk _ (le_refl _)
    omega

theorem median_of_no_numbers (vals : List JSNum) (h : numbers vals = []) : median vals = .nan := by
  simp [median, h]

theorem mean_of_no_numbers (vals : List JSNum) (h : numbers vals = []) : mean vals = .nan := by
  simp [mean, h]

theorem runningSum_ne_nan (l : List ℚ) :
    ∀ total : JSNum, total ≠ .nan → runningSum total l ≠ .nan := by
  induction l with
  | nil => intro total h; exact h
  | cons x rest ih => intro total h; exact ih _ (jsAdd_fin_ne_nan total x h)

theorem mean_ne_nan (vals : List JSNum) (h : numbers vals ≠ []) : mean vals ≠ .nan := by
  rw [numbers_eq_finiteValues] at h
  rw [mean_eq_doubleMean]
  unfold doubleMean
  rw [if_neg h]
  have hlen : 0 < (finiteValues vals).length := List.length_pos.mpr h
  exact jsDiv_fin_pos_ne_nan _ _ (by exact_mod_cast hlen)
    (runningSum_ne_nan _ _ (by simp))

theorem pow2_1023 : pow2 1023 = 2 * pow2 1022 := by
  have := pow2_succ 1022
  simpa using this

theorem median_finite_of_bound (vals : List JSNum) (h : numbers vals ≠ [])
    (hb : ∀ x ∈ numbers vals, |x| ≤ pow2 1022) : ∃ m, median vals = .fin m := by
  unfold median
  generalize numbers vals = N at h hb
  have hlen : N.length ≠ 0 := by simpa using h
  have hp : (nsort N).Perm N := List.perm_insertionSort _ _
  have hl : (nsort N).length = N.length := hp.length_eq
  simp only [hlen, if_false, hl]
  have hk : N.length / 2 < (nsort N).length := by omega
  by_cases hodd : N.length % 2 ≠ 0
  · rw [if_pos hodd, List.getElem?_eq_getElem hk]
    exact ⟨_, rfl⟩
  · have hk1 : N.length / 2 - 1 < (nsort N).length := by omega
    rw [if_neg hodd, List.getElem?_eq_getElem hk, List.getElem?_eq_getElem hk1]
    have ha : |(nsort N)[N.length / 2 - 1]| ≤ pow2 1022 :=
      hb _ (hp.subset (List.getElem_mem hk1))
    have hbb : |(nsort N)[N.length / 2]| ≤ pow2 1022 :=
      hb _ (hp.subset (List.getElem_mem hk))
    have hsum : |(nsort N)[N.length / 2 - 1] + (nsort N)[N.length / 2]| ≤ pow2 1023 := by
      rw [pow2_1023]
      have := abs_add (nsort N)[N.length / 2 - 1] (nsort N)[N.length / 2]
      linarith
    obtain ⟨w, hw, hwb⟩ := roundDouble_bound _ 1023 (by norm_num) (by norm_num) hsum
    have hhalf : |w / 2| ≤ pow2 1022 := by
      rw [abs_div, abs_of_pos (by norm_num : (0 : ℚ) < 2), div_le_iff₀ (by norm_num)]
      rw [pow2_1023] at hwb
      linarith
    obtain ⟨m, hm, _⟩ := roundDouble_bound _ 1022 (by norm_num) (by norm_num) hhalf
    refine ⟨m, ?_⟩
    simp only [jsAdd, hw, jsDiv]
    rw [if_neg (by norm_num), hm]

/-! ## Lemmas on the growth-rate analysis -/

theorem growthRates_fold (cd : List Row) :
    ∀ (suf pre : List Row) (acc : List JSNum), cd = pre ++ suf →
      (suf.enumFrom pre.length).foldl
          (fun acc p =>
            if p.1 = 0 then acc
            else
              match cd[p.1 - 1]? with
              | some prev =>
                acc ++ [jsDiv (jsSub (.fin p.2.cumulative) (.fin prev.cumulative))
                          (.fin prev.cumulative)]
              | none => acc)
          acc
        = acc ++ consecutiveGrowth ((pre.getLast?.toList ++ suf).map Row.cumulative) := by
  intro suf
  induction suf with
  | nil =>
    intro pre acc _
    cases h : pre.getLast? <;> simp [consecutiveGrowth]
  | cons r rest ih =>
    intro pre acc hcd
    have hcd2 : cd = (pre ++ [r]) ++ rest := by simp [hcd]
    have key := fun a => ih (pre ++ [r]) a hcd2
    simp only [List.length_append, List.length_singleton] at key
    simp only [List.enumFrom_cons, List.foldl_cons]
    rcases List.eq_nil_or_concat pre with hp | ⟨p, l, hp⟩
    · subst hp
      simpa using key acc
    · rw [List.concat_eq_append] at hp
      subst hp
      have hne : (p ++ [l]).length ≠ 0 := by simp
      have hget : cd[(p ++ [l]).length - 1]? = some l := by
        rw [hcd]
        have h1 : (p ++ [l]).length - 1 = p.length := by simp
        rw [h1, List.append_assoc, List.getElem?_append_right (le_refl _)]
        simp
      simp only [hne, if_false, hget]
      rw [key]
      simp [consecutiveGrowth]

theorem growthRates_eq (cd : List Row) :
    growthRates cd = consecutiveGrowth (cd.map Row.cumulative) := by
  have := growthRates_fold cd cd [] [] (by simp)
  simpa [growthRates, List.enum] using this

theorem consecutiveGrowth_length (cs : List ℚ) : (consecutiveGrowth cs).length = cs.length - 1 := by
  induction cs with
  | nil => rfl
  | cons a t ih =>
    cases t with
    | nil => rfl
    | cons b u =>
      simp only [consecutiveGrowth, List.length_cons] at ih ⊢
      omega

theorem consecutiveGrowth_getElem? (cs : List ℚ) (i : Nat) (h : i + 1 < cs.length) :
    (consecutiveGrowth cs)[i]? =
      some (jsDiv (jsSub (.fin cs[i + 1]) (.fin cs[i])) (.fin cs[i])) := by
  induction cs generalizing i with
  | nil => simp at h
  | cons a t ih =>
    cases t with
    | nil => simp at h
    | cons b u =>
      cases i with
      | zero => simp [consecutiveGrowth]
      | succ j =>
        have hj : j + 1 < (b :: u).length := by simpa using h
        simpa [consecutiveGrowth] using ih j hj

theorem calculateMedianGrowthRate_eq (country : String) (data : List Row) (last : Row)
    (hlast : (rowsOf country data).getLast? = some last) :
    calculateMedianGrowthRate country data =
      if last.cumulative < 75 then .error .notEnoughData
      else .ok { median := median (growthRates (rowsOf country data)),
                 mean := mean (growthRates (rowsOf country data)) } := by
  have h : (rowsOf country data)[(rowsOf country data).length - 1]? = some last := by
    rw [← List.getLast?_eq_getElem?]; exact hlast
  unfold rowsOf at h
  simp only [calculateMedianGrowthRate, h, rowsOf]

theorem calculateMedianGrowthRate_ok (country : String) (data : List Row) (g : GrowthSummary)
    (h : calculateMedianGrowthRate country data = .ok g) :
    g = { median := median (growthRates (rowsOf country data)),
          mean := mean (growthRates (rowsOf country data)) } := by
  cases hl : (rowsOf country data).getLast? with
  | none =>
    have h0 : (rowsOf country data)[(rowsOf country data).length - 1]? = none := by
      rw [← List.getLast?_eq_getElem?]; exact hl
    unfold rowsOf at h0
    simp [calculateMedianGrowthRate, h0] at h
  | some last =>
    rw [calculateMedianGrowthRate_eq country data last hl] at h
    split at h
    · cases h
    · simp only [Except.ok.injEq] at h
      exact h.symm

theorem pow2_1024 : pow2 1024 = 4 * pow2 1022 := by
  have h := pow2_add 1022 2
  have h2 : pow2 2 = 4 := by
    rw [pow2_eq_zpow]; norm_num
  rw [h2] at h
  have : (1022 : ℤ) + 2 = 1024 := by norm_num
  rw [this] at h
  rw [h, mul_comm]

/-- A finite growth value over a predecessor count above 4 lies within `2 ^ 1022`. -/
theorem growth_value_bound (c p v : ℚ) (hp : 4 < p)
    (h : jsDiv (jsSub (.fin c) (.fin p)) (.fin p) = .fin v) : |v| ≤ pow2 1022 := by
  have hp0 : p ≠ 0 := by linarith
  have hpp : (0 : ℚ) ≤ p := by linarith
  simp only [jsSub] at h
  cases hr : roundDouble (c - p) with
  | fin x =>
    rw [hr] at h
    simp only [jsDiv, hp0, if_false] at h
    have hx := roundDouble_fin_lt _ _ hr
    have hq : |x / p| ≤ pow2 1022 := by
      rw [abs_div, abs_of_pos (by linarith : (0 : ℚ) < p), div_le_iff₀ (by linarith)]
      rw [pow2_1024] at hx
      have h1 : pow2 1022 * 4 ≤ pow2 1022 * p :=
        mul_le_mul_of_nonneg_left (le_of_lt hp) (le_of_lt (pow2_pos _))
      linarith
    obtain ⟨w, hw, hwb⟩ := roundDouble_bound _ 1022 (by norm_num) (by norm_num) hq
    rw [hw] at h
    simp only [JSNum.fin.injEq] at h
    rw [← h]
    exact hwb
  | posInf =>
    rw [hr] at h
    simp [jsDiv, hpp] at h
  | negInf =>
    rw [hr] at h
    simp [jsDiv, hpp] at h
  | nan => exact absurd hr (roundDouble_ne_nan _)

theorem consecutiveGrowth_bound (cs : List ℚ) (h : ∀ c ∈ cs, 4 < c) :
    ∀ x ∈ numbers (consecutiveGrowth cs), |x| ≤ pow2 1022 := by
  induction cs with
  | nil => intro x hx; simp [consecutiveGrowth, numbers] at hx
  | cons a t ih =>
    cases t with
    | nil => intro x hx; simp [consecutiveGrowth, numbers] at hx
    | cons b u =>
      intro x hx
      have ih2 := ih (fun c hc => h c (List.mem_cons_of_mem _ hc))
      simp only [consecutiveGrowth, numbers, List.filterMap_cons] at hx
      cases hv : jsDiv (jsSub (.fin b) (.fin a)) (.fin a) with
      | fin v =>
        rw [hv] at hx
        simp only [List.mem_cons] at hx
        rcases hx with hx | hx
        · rw [hx]
          exact growth_value_bound b a v (h a (List.mem_cons_self _ _)) hv
        · exact ih2 x hx
      | posInf => rw [hv] at hx; exact ih2 x hx
      | negInf => rw [hv] at hx; exact ih2 x hx
      | nan => rw [hv] at hx; exact ih2 x hx

theorem growthRates_bound (cd : List Row) (h : ∀ r ∈ cd, 4 < r.cumulative) :
    ∀ x ∈ numbers (growthRates cd), |x| ≤ pow2 1022 := by
  rw [growthRates_eq]
  apply consecutiveGrowth_bound
  intro c hc
  obtain ⟨r, hr, rfl⟩ := List.mem_map.mp hc
  exact h r hr

/-! ## Basic facts on the per-entity pipeline -/

theorem getCapitalAverageTemperatureFebrurary_ok (W : World) (loc : Coords) (s : State) :
    ∃ r s1, getCapitalAverageTemperatureFebrurary W loc s = (.ok r, s1) := by
  unfold getCapitalAverageTemperatureFebrurary
  exact ⟨_, _, rfl⟩

theorem processCountry_some (W : World) (e : Entity) (data : List Row) (s : State)
    (capital : String) (loc : Coords) (g : GrowthSummary)
    (hcap : resolveCapital W e.country = .ok capital)
    (hgeo : W.geocode (capital ++ ", " ++ e.country) = some loc)
    (hg : calculateMedianGrowthRate e.country data = .ok g) :
    ∃ r s1, processCountry W e data s = (.ok (some r), s1) ∧ r.median = g.median ∧
      r.mean = g.mean := by
  obtain ⟨⟨t, h⟩, s1, hw⟩ := getCapitalAverageTemperatureFebrurary_ok W loc s
  refine ⟨{ country := e.country, capital := capital, mean := g.mean, median := g.median,
             temp := t, humid := h, totalCases := e.totalCases }, s1, ?_, rfl, rfl⟩
  simp only [processCountry, processCountryTry, hcap, hgeo, hg, hw]

/-! ## The growth-rate properties -/

/-- C3 (growth threshold): for an entity with at least one row, `calculateMedianGrowthRate` fails
with the insufficient-data error exactly when the cumulative count of the entity's last row is
below 75; a last count of 74 fails, a last count of 75 returns a `{ median, mean }` summary. -/
theorem growth_threshold (country : String) (data : List Row) (last : Row)
    (hlast : (rowsOf country data).getLast? = some last) :
    (calculateMedianGrowthRate country data = .error .notEnoughData ↔ last.cumulative < 75) ∧
    ((∃ e, calculateMedianGrowthRate country data = .error e) ↔ last.cumulative < 75) ∧
    (¬ last.cumulative < 75 → ∃ g, calculateMedianGrowthRate country data = .ok g) ∧
    (last.cumulative = 74 → calculateMedianGrowthRate country data = .error .notEnoughData) ∧
    (last.cumulative = 75 → ∃ g, calculateMedianGrowthRate country data = .ok g) := by
  rw [calculateMedianGrowthRate_eq country data last hlast]
  refine ⟨?_, ?_, ?_, ?_, ?_⟩
  · by_cases h : last.cumulative < 75 <;> simp [h]
  · by_cases h : last.cumulative < 75 <;> simp [h]
  · intro h; simp [h]
  · intro h; simp [h]; norm_num
  · intro h; simp [h]

/-- Witness of C3: entity `X` with counts 80 then 74 is rejected. -/
theorem growth_threshold_witness :
    calculateMedianGrowthRate "X" [rowX 80, rowX 74] = .error .notEnoughData :=
  (growth_threshold "X" [rowX 80, rowX 74] (rowX 74) (by decide)).2.2.2.1 rfl

/-- C4, as stated, fails.  With cumulative counts 1000, 1100, 1210, 1331 the three growth values
are one and the same double (the one nearest to one tenth), whose arithmetic mean is that double,
but the returned mean is the next double above it.  With counts 1, `2 ^ 1023`, 1, `2 ^ 1023` the
three growth values are finite, but the returned mean is `Infinity`. -/
theorem growth_mean_is_not_the_arithmetic_mean :
    growthRates (rowsOf "X" [rowX 1000, rowX 1100, rowX 1210, rowX 1331]) =
      [.fin (3602879701896397 / 36028797018963968), .fin (3602879701896397 / 36028797018963968),
       .fin (3602879701896397 / 36028797018963968)] ∧
    calculateMedianGrowthRate "X" [rowX 1000, rowX 1100, rowX 1210, rowX 1331] =
      .ok { median := .fin (3602879701896397 / 36028797018963968),
            mean := .fin (7205759403792795 / 72057594037927936) } ∧
    ((3602879701896397 / 36028797018963968 + 3602879701896397 / 36028797018963968 +
        3602879701896397 / 36028797018963968) / 3 : ℚ) = 3602879701896397 / 36028797018963968 ∧
    (7205759403792795 / 72057594037927936 : ℚ) ≠ 3602879701896397 / 36028797018963968 ∧
    growthRates (rowsOf "X" [rowX 1, rowX (2 ^ 1023), rowX 1, rowX (2 ^ 1023)]) =
      [.fin (2 ^ 1023), .fin (-1), .fin (2 ^ 1023)] ∧
    calculateMedianGrowthRate "X" [rowX 1, rowX (2 ^ 1023), rowX 1, rowX (2 ^ 1023)] =
      .ok { median := .fin (2 ^ 1023), mean := .posInf } := by
  decide!

/-- C4, amended: for an entity whose rows, in load order, have non-zero cumulative counts
`c_0, ..., c_n` with `c_n ≥ 75`, the growth sequence has exactly `n` values, none of them `NaN`;
its `i`-th value is the double that `(c_i - c_(i-1)) / c_(i-1)` evaluates to (the exact quotient
when difference and quotient are doubles); rows of other entities do not affect it; and the result
is `{ median, mean }` where, over the finite growth values, the median is the middle value in
ascending order (a median in the exact sense) for an odd count and the double average of the two
middle values for an even count, and the mean is the running double sum divided by the count. -/
theorem growth_rate_correctness (country : String) (data : List Row)
    (hne : rowsOf country data ≠ [])
    (hnz : ∀ r ∈ rowsOf country data, r.cumulative ≠ 0)
    (hlast : ∀ r, (rowsOf country data).getLast? = some r → 75 ≤ r.cumulative) :
    (growthRates (rowsOf country data)).length + 1 = (rowsOf country data).length ∧
    (∀ v ∈ growthRates (rowsOf country data), v ≠ .nan) ∧
    (∀ (i : Nat) (prev curr : Row), (rowsOf country data)[i]? = some prev →
      (rowsOf country data)[i + 1]? = some curr →
      (growthRates (rowsOf country data))[i]? =
          some (jsDiv (jsSub (.fin curr.cumulative) (.fin prev.cumulative))
            (.fin prev.cumulative)) ∧
        (roundDouble (curr.cumulative - prev.cumulative) =
            .fin (curr.cumulative - prev.cumulative) →
          roundDouble ((curr.cumulative - prev.cumulative) / prev.cumulative) =
            .fin ((curr.cumulative - prev.cumulative) / prev.cumulative) →
          (growthRates (rowsOf country data))[i]? =
            some (.fin ((curr.cumulative - prev.cumulative) / prev.cumulative)))) ∧
    calculateMedianGrowthRate country data =
      .ok { median := middleValue (finiteValues (growthRates (rowsOf country data))),
            mean := doubleMean (finiteValues (growthRates (rowsOf country data))) } ∧
    ((finiteValues (growthRates (rowsOf country data))).length % 2 = 1 →
      ∃ m, middleValue (finiteValues (growthRates (rowsOf country data))) = .fin m ∧
        IsMedianOf m (finiteValues (growthRates (rowsOf country data)))) ∧
    (∀ data2, rowsOf country data2 = rowsOf country data →
      calculateMedianGrowthRate country data2 = calculateMedianGrowthRate country data) := by
  obtain ⟨last, hl⟩ : ∃ last, (rowsOf country data).getLast? = some last := by
    cases h : (rowsOf country data).getLast? with
    | none => exact absurd (List.getLast?_eq_none_iff.mp h) hne
    | some l => exact ⟨l, rfl⟩
  have h75 : ¬ last.cumulative < 75 := not_lt.mpr (hlast last hl)
  have hvalue : ∀ (i : Nat) (prev curr : Row), (rowsOf country data)[i]? = some prev →
      (rowsOf country data)[i + 1]? = some curr →
      (growthRates (rowsOf country data))[i]? =
          some (jsDiv (jsSub (.fin curr.cumulative) (.fin prev.cumulative))
            (.fin prev.cumulative)) := by
    intro i prev curr hp hc
    have hi : i + 1 < ((rowsOf country data).map Row.cumulative).length := by
      have := (List.getElem?_eq_some.mp hc).1
      simpa using this
    have h1 := consecutiveGrowth_getElem? _ i hi
    have hp2 : ((rowsOf country data).map Row.cumulative)[i] = prev.cumulative := by
      obtain ⟨hb, hv⟩ := List.getElem?_eq_some.mp hp
      simp [hv]
    have hc2 : ((rowsOf country data).map Row.cumulative)[i + 1] = curr.cumulative := by
      obtain ⟨hb, hv⟩ := List.getElem?_eq_some.mp hc
      simp [hv]
    rw [← growthRates_eq, hp2, hc2] at h1
    exact h1
  refine ⟨?_, ?_, ?_, ?_, ?_, ?_⟩
  · have h1 := consecutiveGrowth_length ((rowsOf country data).map Row.cumulative)
    rw [← growthRates_eq] at h1
    simp only [List.length_map] at h1
    have h2 : (rowsOf country data).length ≠ 0 := by simpa using hne
    omega
  · intro v hv
    obtain ⟨i, hi⟩ := List.mem_iff_getElem?.mp hv
    have hlen : i < (growthRates (rowsOf country data)).length :=
      (List.getElem?_eq_some.mp hi).1
    have h1 := consecutiveGrowth_length ((rowsOf country data).map Row.cumulative)
    rw [← growthRates_eq] at h1
    simp only [List.length_map] at h1
    have hi0 : i < (rowsOf country data).length := by omega
    have hi1 : i + 1 < (rowsOf country data).length := by omega
    have hval := hvalue i _ _ (List.getElem?_eq_getElem hi0) (List.getElem?_eq_getElem hi1)
    rw [hi] at hval
    simp only [Option.some.injEq] at hval
    have hp0 : (rowsOf country data)[i].cumulative ≠ 0 := hnz _ (List.getElem_mem hi0)
    rw [hval]
    simp only [jsSub]
    cases hr : roundDouble ((rowsOf country data)[i + 1].cumulative -
        (rowsOf country data)[i].cumulative) with
    | fin x =>
      simp only [jsDiv, hp0, if_false]
      exact roundDouble_ne_nan _
    | posInf => simp only [jsDiv]; split_ifs <;> simp
    | negInf => simp only [jsDiv]; split_ifs <;> simp
    | nan => exact absurd hr (roundDouble_ne_nan _)
  · intro i prev curr hp hc
    refine ⟨hvalue i prev curr hp hc, ?_⟩
    intro h1 h2
    rw [hvalue i prev curr hp hc]
    have hp0 : prev.cumulative ≠ 0 := hnz prev (List.getElem?_mem hp)
    simp only [jsSub, h1, jsDiv, hp0, if_false, h2]
  · rw [calculateMedianGrowthRate_eq country data last hl, if_neg h75,
      median_eq_middleValue, mean_eq_doubleMean]
  · intro hodd
    exact middleValue_odd_isMedian _ hodd
  · intro data2 h2
    rw [calculateMedianGrowthRate_eq country data last hl,
      calculateMedianGrowthRate_eq country data2 last (h2 ▸ hl), h2]

set_option maxRecDepth 100000 in
/-- Witness of C4 (amended): entity `X` with counts 50, 100, 150 among rows of another entity has
the growth values 1 and 0.5, median 0.75 and mean 0.75. -/
theorem growth_rate_correctness_witness :
    growthRates (rowsOf "X" [rowX 50, ⟨"Y", 7, ""⟩, rowX 100, rowX 150]) =
      [.fin 1, .fin (1 / 2)] ∧
    calculateMedianGrowthRate "X" [rowX 50, ⟨"Y", 7, ""⟩, rowX 100, rowX 150] =
      .ok { median := .fin (3 / 4), mean := .fin (3 / 4) } :=
  ⟨by decide!,
   ((growth_rate_correctness "X" [rowX 50, ⟨"Y", 7, ""⟩, rowX 100, rowX 150] (by decide)
      (by decide!) (by decide!)).2.2.2.1).trans (by decide!)⟩

/-- C5, as stated, fails: with cumulative counts 10, 20, 40 the last count is below 75 and
`calculateMedianGrowthRate` throws instead of returning median 1 and mean 1. -/
theorem example_series_rejected :
    calculateMedianGrowthRate "X" [rowX 10, rowX 20, rowX 40] = .error .notEnoughData ∧
    calculateMedianGrowthRate "X" [rowX 10, rowX 20, rowX 40] ≠
      .ok { median := .fin 1, mean := .fin 1 } := by
  decide!

/-- C5, amended: for an entity whose rows have cumulative counts 10, 20, 40 the growth values are
1, 1, their median is 1 and their mean is 1, but `calculateMedianGrowthRate` itself fails with the
insufficient-data error because the last count 40 is below 75. -/
theorem median_mean_example (country : String) (data : List Row)
    (h : (rowsOf country data).map Row.cumulative = [10, 20, 40]) :
    growthRates (rowsOf country data) = [.fin 1, .fin 1] ∧
    median (growthRates (rowsOf country data)) = .fin 1 ∧
    mean (growthRates (rowsOf country data)) = .fin 1 ∧
    calculateMedianGrowthRate country data = .error .notEnoughData := by
  have hr : growthRates (rowsOf country data) = [.fin 1, .fin 1] := by
    rw [growthRates_eq, h]
    decide!
  obtain ⟨last, hl, hc⟩ : ∃ last, (rowsOf country data).getLast? = some last ∧
      last.cumulative = 40 := by
    have h1 : ((rowsOf country data).map Row.cumulative).getLast? = some 40 := by rw [h]; rfl
    rw [List.getLast?_map] at h1
    cases hlast : (rowsOf country data).getLast? with
    | none => simp [hlast] at h1
    | some l => exact ⟨l, rfl, by simpa [hlast] using h1⟩
  refine ⟨hr, ?_, ?_, ?_⟩
  · rw [hr]; decide!
  · rw [hr]; decide!
  · rw [calculateMedianGrowthRate_eq country data last hl, hc]
    norm_num

/-- Witness of C5 (amended): entity `X` with counts 10, 20, 40 beside a row of another entity. -/
theorem median_mean_example_witness :
    median (growthRates (rowsOf "X" [rowX 10, ⟨"Y", 90, ""⟩, rowX 20, rowX 40])) = .fin 1 ∧
    calculateMedianGrowthRate "X" [rowX 10, ⟨"Y", 90, ""⟩, rowX 20, rowX 40] =
      .error .notEnoughData :=
  ⟨(median_mean_example "X" [rowX 10, ⟨"Y", 90, ""⟩, rowX 20, rowX 40] (by decide)).2.1,
   (median_mean_example "X" [rowX 10, ⟨"Y", 90, ""⟩, rowX 20, rowX 40] (by decide)).2.2.2⟩

/-- C10, as stated, fails: with cumulative counts 0, 100 the predecessor count is zero, the growth
value is `Infinity`, `calculateMedianGrowthRate` returns a summary instead of failing, and
`processCountry` returns a record. -/
theorem zero_predecessor_returns_summary :
    growthRates (rowsOf "X" [rowX 0, rowX 100]) = [.posInf] ∧
    (∃ g, calculateMedianGrowthRate "X" [rowX 0, rowX 100] = .ok g) ∧
    (∃ r s1, processCountry offlineWorld { country := "X", city := "", totalCases := 100 }
      [rowX 0, rowX 100] emptyState = (.ok (some r), s1)) := by
  have h1 : calculateMedianGrowthRate "X" [rowX 0, rowX 100] = .ok ⟨.nan, .nan⟩ := by decide!
  refine ⟨by decide!, ⟨_, h1⟩, ?_⟩
  obtain ⟨r, s1, h, _⟩ := processCountry_some offlineWorld
    { country := "X", city := "", totalCases := 100 } [rowX 0, rowX 100] emptyState "Capital"
    { latitude := "1", longitude := "2" } _ (by decide) rfl h1
  exact ⟨r, s1, h⟩

/-- C10, amended: for an entity whose last cumulative count is at least 75 and one of whose rows
with a successor has cumulative count 0, `calculateMedianGrowthRate` does not fail: the growth
value of the successor is `Infinity`, `-Infinity` or `NaN`, a `{ median, mean }` summary is
returned, and `processCountry` returns a record for the entity whenever capital resolution and
geocoding succeed. -/
theorem division_by_zero_no_error (country : String) (data : List Row) (last prev curr : Row)
    (i : Nat)
    (hlast : (rowsOf country data).getLast? = some last) (h75 : 75 ≤ last.cumulative)
    (hprev : (rowsOf country data)[i]? = some prev)
    (hcurr : (rowsOf country data)[i + 1]? = some curr)
    (hzero : prev.cumulative = 0) :
    (∃ g, calculateMedianGrowthRate country data = .ok g) ∧
    (∃ v, (growthRates (rowsOf country data))[i]? = some v ∧ v.isFinite = false) ∧
    (∀ (W : World) (e : Entity) (s : State) (capital : String) (loc : Coords),
      e.country = country → resolveCapital W country = .ok capital →
      W.geocode (capital ++ ", " ++ country) = some loc →
      ∃ r s1, processCountry W e data s = (.ok (some r), s1)) := by
  have hcalc : calculateMedianGrowthRate country data =
      .ok { median := median (growthRates (rowsOf country data)),
            mean := mean (growthRates (rowsOf country data)) } := by
    rw [calculateMedianGrowthRate_eq country data last hlast, if_neg (not_lt.mpr h75)]
  refine ⟨⟨_, hcalc⟩, ?_, ?_⟩
  · have hi : i + 1 < ((rowsOf country data).map Row.cumulative).length := by
      have := (List.getElem?_eq_some.mp hcurr).1
      simpa using this
    have h1 := consecutiveGrowth_getElem? _ i hi
    have hp2 : ((rowsOf country data).map Row.cumulative)[i] = 0 := by
      obtain ⟨hb, hv⟩ := List.getElem?_eq_some.mp hprev
      simp [hv, hzero]
    rw [← growthRates_eq, hp2] at h1
    refine ⟨_, h1, ?_⟩
    simp only [jsSub]
    cases roundDouble (((rowsOf country data).map Row.cumulative)[i + 1] - 0) with
    | fin x =>
      simp only [jsDiv, if_true]
      split_ifs <;> rfl
    | posInf => simp [jsDiv, JSNum.isFinite]
    | negInf => simp [jsDiv, JSNum.isFinite]
    | nan => rfl
  · intro W e s capital loc he hcap hgeo
    subst he
    obtain ⟨r, s1, h, _⟩ := processCountry_some W e data s capital loc _ hcap hgeo hcalc
    exact ⟨r, s1, h⟩

/-- Witness of C10 (amended): entity `X` with counts 0, 100. -/
theorem division_by_zero_no_error_witness :
    ∃ g, calculateMedianGrowthRate "X" [rowX 0, rowX 100] = .ok g :=
  (division_by_zero_no_error "X" [rowX 0, rowX 100] (rowX 100) (rowX 0) (rowX 100) 0
    (by decide) (by decide!) (by decide) (by decide) rfl).1

/-! ## The cached fetcher -/

theorem lookup_writtenFields (key : String) (fields : List (String × JSON)) :
    (writtenFields fields).lookup key = (fields.lookup key).map JSON.written := by
  induction fields with
  | nil => rfl
  | cons p rest ih =>
    obtain ⟨k, v⟩ := p
    simp only [writtenFields, List.lookup_cons]
    cases h : key == k
    · simpa using ih
    · rfl

theorem truthy_of_truthy_written (d : JSON) (h : d.written.truthy = true) : d.truthy = true := by
  cases d with
  | null => simp [JSON.written, JSON.truthy] at h
  | bool b => simpa [JSON.written, JSON.truthy] using h
  | num n => cases n <;> simp_all [JSON.written, JSON.truthy]
  | str s => simpa [JSON.written, JSON.truthy] using h
  | arr items => rfl
  | obj fields => rfl

theorem carriesError_written (d : JSON) (h : d.carriesError = false) :
    d.written.carriesError = false := by
  cases d with
  | null => rfl
  | bool b => rfl
  | num n => cases n <;> rfl
  | str s => rfl
  | arr items => simp [JSON.written, JSON.carriesError, JSON.prop, JSVal.truthy]
  | obj fields =>
    simp only [JSON.carriesError, JSON.prop] at h
    simp only [JSON.written, JSON.carriesError, JSON.prop, lookup_writtenFields]
    cases hl : fields.lookup "error" with
    | none => rfl
    | some e =>
      rw [hl] at h
      simp only [Option.map_some', JSVal.truthy] at h ⊢
      cases ht : e.written.truthy with
      | false => rfl
      | true => rw [truthy_of_truthy_written e ht] at h; exact absurd h (by decide)

theorem fetchWithCache_of_performsLive (W : World) (uri : String) (s : State)
    (h : performsLive uri s = true) :
    fetchWithCache W uri s =
      match fetchLive W uri s with
      | (.ok data, s1) => (.ok data, s1)
      | (.error _, s1) => (.ok .null, s1) := by
  unfold performsLive at h
  unfold fetchWithCache fetchWithCacheTry
  cases hg : getValue uri s with
  | error e => simp [hg] at h
  | ok data =>
    simp only [hg] at h
    simp only [h, if_true]

theorem fetchWithCache_of_not_performsLive (W : World) (uri : String) (s : State)
    (h : performsLive uri s = false) :
    (fetchWithCache W uri s).2 = s := by
  unfold performsLive at h
  unfold fetchWithCache fetchWithCacheTry
  cases hg : getValue uri s with
  | error e => rfl
  | ok data =>
    simp only [hg] at h
    simp [h]

theorem fetchLive_of_liveFails (W : World) (uri : String) (s : State)
    (h : liveFails (W.live s.calls uri) = true) :
    ∃ e, fetchLive W uri s = (.error e, { s with calls := s.calls + 1 }) := by
  unfold liveFails at h
  unfold fetchLive
  cases hl : W.live s.calls uri with
  | none => exact ⟨_, rfl⟩
  | some d =>
    rw [hl] at h
    have hc : d.carriesError = true := h
    cases d
    case null => exact ⟨.typeError, rfl⟩
    all_goals exact ⟨.responseError, by simp only [hc, if_true]⟩

theorem fetchLive_of_success (W : World) (uri : String) (s : State) (d : JSON)
    (hl : W.live s.calls uri = some d) (hok : d.carriesError = false) (hnn : d.truthy = true) :
    fetchLive W uri s = (.ok d, setValue uri d { s with calls := s.calls + 1 }) := by
  unfold fetchLive
  rw [hl]
  cases d
  case null => simp [JSON.truthy] at hnn
  all_goals simp [hok]

theorem performsLive_of_absent (uri : String) (s : State) (h : s.cache uri = none) :
    performsLive uri s = true := by
  simp [performsLive, getValue, h, JSON.truthy]

theorem performsLive_congr (uri : String) (s t : State) (h : t.cache = s.cache) :
    performsLive uri t = performsLive uri s := by
  simp [performsLive, getValue, h]

theorem fetchWithCache_of_fail (W : World) (uri : String) (s : State)
    (hp : performsLive uri s = true) (hfail : liveFails (W.live s.calls uri) = true) :
    fetchWithCache W uri s = (.ok .null, { s with calls := s.calls + 1 }) := by
  obtain ⟨e, he⟩ := fetchLive_of_liveFails W uri s hfail
  rw [fetchWithCache_of_performsLive W uri s hp, he]

theorem fetchWithCache_of_live_success (W : World) (uri : String) (s : State) (d : JSON)
    (hp : performsLive uri s = true) (hl : W.live s.calls uri = some d)
    (hok : d.carriesError = false) :
    (fetchWithCache W uri s).1 = .ok d ∧ (fetchWithCache W uri s).2.calls = s.calls + 1 := by
  rw [fetchWithCache_of_performsLive W uri s hp]
  unfold fetchLive
  rw [hl]
  cases d <;> simp_all [setValue]

theorem fetchWithCache_snd_of_performsLive (W : World) (uri : String) (s : State)
    (hp : performsLive uri s = true) :
    (fetchWithCache W uri s).2 = (fetchLive W uri s).2 := by
  rw [fetchWithCache_of_performsLive W uri s hp]
  rcases fetchLive W uri s with ⟨_ | _, _⟩ <;> rfl

theorem fetchLive_cache (W : World) (uri : String) (s : State) :
    (fetchLive W uri s).2.cache = s.cache ∨
      ∃ d, W.live s.calls uri = some d ∧ d.carriesError = false ∧
        (fetchLive W uri s).2 = setValue uri d { s with calls := s.calls + 1 } := by
  unfold fetchLive
  cases hl : W.live s.calls uri with
  | none => exact Or.inl rfl
  | some d =>
    cases hc : d.carriesError with
    | true => cases d <;> simp [hc]
    | false =>
      cases d
      case null => exact Or.inl rfl
      all_goals exact Or.inr ⟨_, rfl, hc, by simp [hc]⟩

theorem fetchWithCache_of_stored (W : World) (uri : String) (s : State) (v : JSON)
    (hc : s.cache uri = some (.json v)) (ht : v.truthy = true) (he : v.carriesError = false) :
    fetchWithCache W uri s = (.ok v, s) := by
  simp [fetchWithCache, fetchWithCacheTry, getValue, hc, ht, he]

/-- C1, as stated, fails.  With an empty store and a stub answering `0` and then `1` (two distinct
documents without error marker), the second call returns `1`, not the first document, and the live
lookup is performed twice.  With a stub answering with a document that carries the number
`Infinity`, the second call is served from the store but returns a different document, in which
the number has become `null`. -/
theorem falsy_document_fetched_twice :
    emptyState.cache "k" = none ∧
    countingWorld.live 0 "k" = some (.num (.fin 0)) ∧
    countingWorld.live 1 "k" = some (.num (.fin 1)) ∧
    JSON.num (.fin 0) ≠ JSON.num (.fin 1) ∧
    (JSON.num (.fin 0)).carriesError = false ∧ (JSON.num (.fin 1)).carriesError = false ∧
    (fetchWithCache countingWorld "k" emptyState).1 = .ok (.num (.fin 0)) ∧
    (fetchWithCache countingWorld "k" (fetchWithCache countingWorld "k" emptyState).2).1
      = .ok (.num (.fin 1)) ∧
    (fetchWithCache countingWorld "k" (fetchWithCache countingWorld "k" emptyState).2).1
      ≠ .ok (.num (.fin 0)) ∧
    (fetchWithCache countingWorld "k" (fetchWithCache countingWorld "k" emptyState).2).2.calls
      = 2 ∧
    hugeDoc.truthy = true ∧ hugeDoc.carriesError = false ∧
    (fetchWithCache hugeWorld "k" emptyState).1 = .ok hugeDoc ∧
    (fetchWithCache hugeWorld "k" (fetchWithCache hugeWorld "k" emptyState).2).1 =
      .ok (.obj [("currently",
        .obj [("temperature", .null), ("humidity", .num (.fin (1 / 2)))])]) ∧
    (fetchWithCache hugeWorld "k" (fetchWithCache hugeWorld "k" emptyState).2).1 ≠ .ok hugeDoc ∧
    (fetchWithCache hugeWorld "k" (fetchWithCache hugeWorld "k" emptyState).2).2.calls = 1 := by
  have h1 : fetchWithCache countingWorld "k" emptyState =
      (.ok (.num (.fin 0)), setValue "k" (.num (.fin 0)) { emptyState with calls := 1 }) := by
    simp [fetchWithCache, fetchWithCacheTry, getValue, emptyState, fetchLive, countingWorld,
      offlineWorld, JSON.truthy, JSON.carriesError, JSON.prop, JSVal.truthy]
  have h2 : fetchWithCache countingWorld "k"
      (setValue "k" (.num (.fin 0)) { emptyState with calls := 1 }) =
      (.ok (.num (.fin 1)), setValue "k" (.num (.fin 1))
        { setValue "k" (.num (.fin 0)) { emptyState with calls := 1 } with calls := 2 }) := by
    simp [fetchWithCache, fetchWithCacheTry, getValue, emptyState, fetchLive, countingWorld,
      offlineWorld, JSON.truthy, JSON.carriesError, JSON.prop, JSVal.truthy, setValue,
      JSON.written]
  have hw : hugeDoc.written = .obj [("currently",
      .obj [("temperature", .null), ("humidity", .num (.fin (1 / 2)))])] := by
    simp [hugeDoc, JSON.written, writtenFields]
  have h3 : fetchWithCache hugeWorld "k" emptyState =
      (.ok hugeDoc, setValue "k" hugeDoc { emptyState with calls := 1 }) := by
    rw [fetchWithCache_of_performsLive _ _ _ (performsLive_of_absent _ _ rfl),
      fetchLive_of_success hugeWorld "k" emptyState hugeDoc rfl rfl rfl]
    rfl
  have h4 : fetchWithCache hugeWorld "k" (setValue "k" hugeDoc { emptyState with calls := 1 }) =
      (.ok (.obj [("currently",
        .obj [("temperature", .null), ("humidity", .num (.fin (1 / 2)))])]),
       setValue "k" hugeDoc { emptyState with calls := 1 }) := by
    rw [← hw]
    exact fetchWithCache_of_stored hugeWorld "k" _ hugeDoc.written (by simp [setValue])
      (by rw [hw]; rfl) (by rw [hw]; rfl)
  rw [h1, h3]
  simp only [h2, h4]
  refine ⟨rfl, rfl, rfl, by simp, rfl, rfl, trivial, trivial, by simp, rfl, rfl, rfl, trivial,
    trivial, by simp [hugeDoc], rfl⟩

/-- C1, amended: when the key is absent from the store and the live lookup answers the first call
with a truthy document without error marker, the first call returns that document; the second
call performs no live lookup and returns the document as `JSON.stringify` wrote it, provided that
form is still truthy, as it is for every object and every array; and both calls return the first
document, with exactly one live lookup, whenever the document is written back unchanged, that is,
whenever it contains no number that is not finite. -/
theorem cache_idempotence (W : World) (uri : String) (s : State) (d1 : JSON)
    (habsent : s.cache uri = none) (hlive : W.live s.calls uri = some d1)
    (hok : d1.carriesError = false) (htruthy : d1.truthy = true) :
    (fetchWithCache W uri s).1 = .ok d1 ∧
    (fetchWithCache W uri s).2.calls = s.calls + 1 ∧
    (d1.written.truthy = true →
      (fetchWithCache W uri (fetchWithCache W uri s).2).1 = .ok d1.written ∧
      (fetchWithCache W uri (fetchWithCache W uri s).2).2.calls = s.calls + 1) ∧
    ((∃ fields, d1 = .obj fields) ∨ (∃ items, d1 = .arr items) → d1.written.truthy = true) ∧
    (d1.written = d1 →
      (fetchWithCache W uri (fetchWithCache W uri s).2).1 = .ok d1 ∧
      (fetchWithCache W uri (fetchWithCache W uri s).2).2.calls = s.calls + 1) := by
  have hp := performsLive_of_absent uri s habsent
  have h1 : fetchWithCache W uri s =
      (.ok d1, setValue uri d1 { s with calls := s.calls + 1 }) := by
    rw [fetchWithCache_of_performsLive W uri s hp,
      fetchLive_of_success W uri s d1 hlive hok htruthy]
  have h2 : d1.written.truthy = true →
      fetchWithCache W uri (setValue uri d1 { s with calls := s.calls + 1 }) =
        (.ok d1.written, setValue uri d1 { s with calls := s.calls + 1 }) := by
    intro ht
    exact fetchWithCache_of_stored W uri _ d1.written (by simp [setValue]) ht
      (carriesError_written d1 hok)
  rw [h1]
  refine ⟨rfl, rfl, ?_, ?_, ?_⟩
  · intro ht
    simp only [h2 ht]
    exact ⟨trivial, rfl⟩
  · rintro (⟨fields, rfl⟩ | ⟨items, rfl⟩) <;> simp [JSON.written, JSON.truthy]
  · intro hw
    have ht : d1.written.truthy = true := by rw [hw]; exact htruthy
    simp only [h2 ht, hw]
    exact ⟨trivial, rfl⟩

/-- Witness of C1 (amended): the empty store and a stub whose first answer is the document `1`. -/
theorem cache_idempotence_witness :
    (fetchWithCache countingWorld "k" { emptyState with calls := 1 }).1 = .ok (.num (.fin 1)) ∧
    (fetchWithCache countingWorld "k"
      (fetchWithCache countingWorld "k" { emptyState with calls := 1 }).2).1
        = .ok (.num (.fin 1)) ∧
    (fetchWithCache countingWorld "k"
      (fetchWithCache countingWorld "k" { emptyState with calls := 1 }).2).2.calls = 2 :=
  ⟨(cache_idempotence countingWorld "k" { emptyState with calls := 1 } (.num (.fin 1)) rfl rfl
      rfl (by simp [JSON.truthy])).1,
   ((cache_idempotence countingWorld "k" { emptyState with calls := 1 } (.num (.fin 1)) rfl rfl
      rfl (by simp [JSON.truthy])).2.2.2.2 (by simp [JSON.written])).1,
   ((cache_idempotence countingWorld "k" { emptyState with calls := 1 } (.num (.fin 1)) rfl rfl
      rfl (by simp [JSON.truthy])).2.2.2.2 (by simp [JSON.written])).2⟩

/-- C2 (error non-persistence): a call of `fetchWithCache` whose live lookup fails (it throws, or
it returns a document carrying an error marker) leaves the store unchanged; a call never stores a
document carrying an error marker; and when the live lookup fails on a first call and succeeds on
a second call, the second call returns the successful document.  What a call stores is the
written form of a live document without error marker, itself without error marker. -/
theorem error_non_persistence (W : World) (uri : String) (s : State) :
    (liveFails (W.live s.calls uri) = true → (fetchWithCache W uri s).2.cache = s.cache) ∧
    (∀ k v, (fetchWithCache W uri s).2.cache k = some (.json v) →
      s.cache k = some (.json v) ∨
        (k = uri ∧ v.carriesError = false ∧
          ∃ d, W.live s.calls uri = some d ∧ d.carriesError = false ∧ v = d.written)) ∧
    (performsLive uri s = true → liveFails (W.live s.calls uri) = true →
      ∀ d, W.live (s.calls + 1) uri = some d → d.carriesError = false →
        (fetchWithCache W uri s).1 = .ok .null ∧
        (fetchWithCache W uri (fetchWithCache W uri s).2).1 = .ok d) := by
  refine ⟨?_, ?_, ?_⟩
  · intro hfail
    cases hp : performsLive uri s with
    | false => rw [fetchWithCache_of_not_performsLive W uri s hp]
    | true => rw [fetchWithCache_of_fail W uri s hp hfail]
  · intro k v hk
    cases hp : performsLive uri s with
    | false =>
      rw [fetchWithCache_of_not_performsLive W uri s hp] at hk
      exact Or.inl hk
    | true =>
      rw [fetchWithCache_snd_of_performsLive W uri s hp] at hk
      rcases fetchLive_cache W uri s with h | ⟨d, hl, hc, h⟩
      · rw [h] at hk
        exact Or.inl hk
      · rw [h] at hk
        simp only [setValue] at hk
        by_cases hku : k = uri
        · simp only [hku, if_true, Option.some.injEq, Cell.json.injEq] at hk
          subst hk
          exact Or.inr ⟨hku, carriesError_written d hc, d, hl, hc, rfl⟩
        · simp only [hku, if_false] at hk
          exact Or.inl hk
  · intro hp hfail d hl hok
    have h1 := fetchWithCache_of_fail W uri s hp hfail
    rw [h1]
    refine ⟨rfl, ?_⟩
    have hp2 : performsLive uri { s with calls := s.calls + 1 } = true :=
      (performsLive_congr uri { s with calls := s.calls + 1 } s rfl).trans hp
    exact (fetchWithCache_of_live_success W uri { s with calls := s.calls + 1 } d hp2 hl hok).1

/-- Witness of C2: the empty store and a stub that fails once and then answers with an object. -/
theorem error_non_persistence_witness :
    (fetchWithCache recoveringWorld "k" emptyState).2.cache = emptyState.cache ∧
    (fetchWithCache recoveringWorld "k" emptyState).1 = .ok .null ∧
    (fetchWithCache recoveringWorld "k" (fetchWithCache recoveringWorld "k" emptyState).2).1
      = .ok (.obj [("currently", .obj [])]) :=
  ⟨(error_non_persistence recoveringWorld "k" emptyState).1 rfl,
   (error_non_persistence recoveringWorld "k" emptyState).2.2 rfl rfl _ rfl rfl⟩

/-! ## Lemmas on the weather aggregation -/

theorem weatherLoop_eq (W : World) :
    ∀ (uris : List String) (temps : List JSNum) (humids : List JSVal) (s : State),
      weatherLoop W uris temps humids s =
        (temps ++ ((lookups W uris s).filterMap (pushedSample W)).map Prod.fst,
         humids ++ ((lookups W uris s).filterMap (pushedSample W)).map Prod.snd,
         stateAfterLookups W uris s) := by
  intro uris
  induction uris with
  | nil => intro temps humids s; simp [weatherLoop, lookups, stateAfterLookups]
  | cons uri rest ih =>
    intro temps humids s
    rcases h : fetchWithCache W uri s with ⟨r, s1⟩
    cases r with
    | error e => simp [weatherLoop, lookups, stateAfterLookups, h, pushedSample, ih]
    | ok doc =>
      cases hr : readSample W doc with
      | error e => simp [weatherLoop, lookups, stateAfterLookups, h, pushedSample, ih, hr]
      | ok p =>
        obtain ⟨c, hum⟩ := p
        simp [weatherLoop, lookups, stateAfterLookups, h, pushedSample, ih, hr]

theorem lookups_length (W : World) :
    ∀ (uris : List String) (s : State), (lookups W uris s).length = uris.length := by
  intro uris
  induction uris with
  | nil => intro s; rfl
  | cons uri rest ih => intro s; simp [lookups, ih]

theorem weatherUris_length (W : World) (loc : Coords) : (weatherUris W loc).length = 29 := by
  simp [weatherUris, getAllTimesFebruar]

theorem destructureCurrently_eq (doc : JSON) :
    destructureCurrently doc =
      match currentlyPart (.ok doc) with
      | none => .error .typeError
      | some part => .ok (part.prop "temperature", part.prop "humidity") := by
  cases doc with
  | obj fields =>
    simp only [destructureCurrently, currentlyPart]
    cases h : (JSON.obj fields).prop "currently" with
    | none => rfl
    | some part => cases part <;> rfl
  | null => rfl
  | bool b => rfl
  | num n => rfl
  | str s => rfl
  | arr items => rfl

theorem fahrenheitToCelsius_eq (W : World) (t : JSVal) :
    fahrenheitToCelsius W t =
      match celsiusOfField W t with
      | some c => .ok c
      | none => .error .typeError := by
  cases t with
  | none => rfl
  | some j =>
    cases j with
    | num n =>
      cases n with
      | fin f => rfl
      | posInf => simp only [fahrenheitToCelsius, celsiusOfField]
      | negInf => simp only [fahrenheitToCelsius, celsiusOfField]
      | nan => simp only [fahrenheitToCelsius, celsiusOfField]
    | null => simp only [fahrenheitToCelsius, celsiusOfField]
    | bool b => simp only [fahrenheitToCelsius, celsiusOfField]
    | str s => simp only [fahrenheitToCelsius, celsiusOfField]
    | arr items => simp only [fahrenheitToCelsius, celsiusOfField]
    | obj fields => simp only [fahrenheitToCelsius, celsiusOfField]

theorem statsNumber_eq (W : World) (h : JSVal) : statsNumber W h = numberOfField W h := by
  cases h with
  | none => rfl
  | some j =>
    cases j with
    | arr items => cases items <;> rfl
    | null => rfl
    | bool b => rfl
    | num n => rfl
    | str s => rfl
    | obj fields => rfl

theorem pushedSample_eq (W : World) (r : Except Err JSON) :
    pushedSample W r =
      match currentlyPart r with
      | none => none
      | some part =>
        match celsiusOfField W (part.prop "temperature") with
        | none => none
        | some c => some (c, part.prop "humidity") := by
  cases r with
  | error e => rfl
  | ok doc =>
    simp only [pushedSample, readSample, destructureCurrently_eq]
    cases currentlyPart (.ok doc) with
    | none => rfl
    | some part =>
      simp only [fahrenheitToCelsius_eq]
      cases hc : celsiusOfField W (part.prop "temperature") <;> simp

theorem lookupFails_iff (r : Except Err JSON) :
    lookupFails r = true ↔ currentlyPart r = none := by
  cases r with
  | error e => simp [lookupFails, currentlyPart]
  | ok doc =>
    simp only [lookupFails, destructureCurrently_eq]
    cases currentlyPart (.ok doc) <;> simp

theorem counted_temperatures (W : World) (L : List (Except Err JSON)) :
    numbers ((L.filterMap (pushedSample W)).map Prod.fst) =
      L.filterMap (countedTemperature W) := by
  rw [numbers_eq_finiteValues]
  unfold finiteValues
  rw [List.filterMap_map, List.filterMap_filterMap]
  apply List.filterMap_congr
  intro r _
  rw [pushedSample_eq]
  unfold countedTemperature
  cases currentlyPart r with
  | none => rfl
  | some part =>
    simp only []
    cases hc : celsiusOfField W (part.prop "temperature") <;> simp

theorem counted_humidities (W : World) (L : List (Except Err JSON)) :
    numbers (((L.filterMap (pushedSample W)).map Prod.snd).map (statsNumber W)) =
      L.filterMap (countedHumidity W) := by
  rw [numbers_eq_finiteValues]
  unfold finiteValues
  rw [List.map_map, List.filterMap_map, List.filterMap_filterMap]
  apply List.filterMap_congr
  intro r _
  rw [pushedSample_eq]
  unfold countedHumidity
  cases currentlyPart r with
  | none => rfl
  | some part =>
    simp only []
    cases hc : celsiusOfField W (part.prop "temperature") <;> simp [statsNumber_eq]

theorem weather_result (W : World) (loc : Coords) (s : State) :
    getCapitalAverageTemperatureFebrurary W loc s =
      (.ok (doubleMean ((lookups W (weatherUris W loc) s).filterMap (countedTemperature W)),
            doubleMean ((lookups W (weatherUris W loc) s).filterMap (countedHumidity W))),
       stateAfterLookups W (weatherUris W loc) s) := by
  unfold getCapitalAverageTemperatureFebrurary
  rw [weatherLoop_eq]
  simp only [List.nil_append, mean_eq_doubleMean, ← numbers_eq_finiteValues,
    counted_temperatures, counted_humidities]

theorem counted_of_complete (W : World) (r : Except Err JSON) (h : completeSample r = true) :
    (countedTemperature W r).isSome = true ∧ (countedHumidity W r).isSome = true ∧
      lookupFails r = false := by
  have hf : lookupFails r = false := by
    cases hl : lookupFails r with
    | false => rfl
    | true =>
      have hn := (lookupFails_iff r).mp hl
      simp [completeSample, hn] at h
  unfold completeSample at h
  unfold countedTemperature countedHumidity
  cases hc : currentlyPart r with
  | none => simp [hc] at h
  | some part =>
    simp only [hc] at h ⊢
    split at h
    · rename_i f hh ht hhum
      simp only [ht, hhum, celsiusOfField, numberOfField, JSNum.finite?]
      cases hcel : celsius f with
      | fin c => exact ⟨rfl, rfl, hf⟩
      | posInf => rw [hcel] at h; simp [JSNum.isFinite] at h
      | negInf => rw [hcel] at h; simp [JSNum.isFinite] at h
      | nan => rw [hcel] at h; simp [JSNum.isFinite] at h
    · simp at h

theorem counted_lengths (W : World) (L : List (Except Err JSON))
    (H : ∀ r ∈ L, lookupFails r = true ∨ completeSample r = true) :
    (L.filterMap (countedTemperature W)).length + L.countP lookupFails = L.length ∧
    (L.filterMap (countedHumidity W)).length + L.countP lookupFails = L.length := by
  induction L with
  | nil => simp
  | cons r rest ih =>
    obtain ⟨ih1, ih2⟩ := ih (fun x hx => H x (List.mem_cons_of_mem _ hx))
    rcases H r (List.mem_cons_self _ _) with hf | hc
    · have hn := (lookupFails_iff r).mp hf
      have h1 : countedTemperature W r = none := by simp [countedTemperature, hn]
      have h2 : countedHumidity W r = none := by simp [countedHumidity, hn]
      simp only [List.filterMap_cons, h1, h2, List.countP_cons, hf, if_true, List.length_cons]
      exact ⟨by omega, by omega⟩
    · obtain ⟨h1, h2, hf⟩ := counted_of_complete W r hc
      obtain ⟨t, ht⟩ := Option.isSome_iff_exists.mp h1
      obtain ⟨h, hh⟩ := Option.isSome_iff_exists.mp h2
      simp only [List.filterMap_cons, ht, hh, List.countP_cons, hf, List.length_cons]
      exact ⟨by simp; omega, by simp; omega⟩

/-! ## The weather properties -/

set_option maxRecDepth 100000 in
/-- C6, as stated, fails.  When all 29 lookups return a document with a `currently` part, 19 of
them with 68 degrees Fahrenheit and humidity one half and 10 of them with 32 degrees Fahrenheit
and no humidity, the temperature average is taken over all 29 samples (it is the double nearest to
380 / 29, not the 20 degrees Celsius of the 19 complete samples) while the humidity average is
taken over the 19 samples that carry a humidity (it is one half, not 9.5 / 29): the two averages
are not means over one and the same set of successful samples. -/
theorem sample_without_humidity_counts_for_temperature :
    (∀ r ∈ lookups halfDryWorld (weatherUris halfDryWorld ⟨"1", "2"⟩) emptyState,
      lookupFails r = false) ∧
    (lookups halfDryWorld (weatherUris halfDryWorld ⟨"1", "2"⟩) emptyState).countP
      completeSample = 19 ∧
    (getCapitalAverageTemperatureFebrurary halfDryWorld ⟨"1", "2"⟩ emptyState).1 =
      .ok (.fin (7376585596555123 / 562949953421312), .fin (1 / 2)) ∧
    roundDouble (380 / 29) = .fin (7376585596555123 / 562949953421312) ∧
    (7376585596555123 / 562949953421312 : ℚ) ≠ 20 ∧
    ((1 / 2 : ℚ) ≠ (19 / 2) / 29) := by
  decide!

/-- C6, amended: `getCapitalAverageTemperatureFebrurary` never aborts, whatever the 29 lookups
give.  A sample whose lookup fails or gives no `currently` part, and a sample without temperature,
is excluded from both averages and never counted as zero.  The temperature average is the mean
(the running double sum divided by the count) over the finite Celsius values of the remaining
samples; the humidity average is the mean over the finite humidities of the remaining samples, so
a sample with a temperature but without humidity counts for the temperature only.  When every
lookup either fails or gives a complete sample (finite temperature and humidity), both averages
are over exactly the complete samples, 29 less the number of failed lookups; when every lookup
fails both averages are `NaN`. -/
theorem weather_means_over_counted_samples (W : World) (loc : Coords) (s : State) :
    (∃ r s1, getCapitalAverageTemperatureFebrurary W loc s = (.ok r, s1)) ∧
    (lookups W (weatherUris W loc) s).length = 29 ∧
    (getCapitalAverageTemperatureFebrurary W loc s).1 =
      .ok (doubleMean ((lookups W (weatherUris W loc) s).filterMap (countedTemperature W)),
           doubleMean ((lookups W (weatherUris W loc) s).filterMap (countedHumidity W))) ∧
    (∀ r, lookupFails r = true → countedTemperature W r = none ∧ countedHumidity W r = none) ∧
    (∀ r part, currentlyPart r = some part → part.prop "temperature" = none →
      countedTemperature W r = none ∧ countedHumidity W r = none) ∧
    (∀ r part f, currentlyPart r = some part →
      part.prop "temperature" = some (.num (.fin f)) → part.prop "humidity" = none →
      countedTemperature W r = (celsius f).finite? ∧ countedHumidity W r = none) ∧
    (∀ r part f h, currentlyPart r = some part →
      part.prop "temperature" = some (.num (.fin f)) →
      part.prop "humidity" = some (.num (.fin h)) →
      countedTemperature W r = (celsius f).finite? ∧ countedHumidity W r = some h) ∧
    ((∀ r ∈ lookups W (weatherUris W loc) s, lookupFails r = true ∨ completeSample r = true) →
      ((lookups W (weatherUris W loc) s).filterMap (countedTemperature W)).length +
          (lookups W (weatherUris W loc) s).countP lookupFails = 29 ∧
      ((lookups W (weatherUris W loc) s).filterMap (countedHumidity W)).length +
          (lookups W (weatherUris W loc) s).countP lookupFails = 29) ∧
    ((∀ r ∈ lookups W (weatherUris W loc) s, lookupFails r = true) →
      (getCapitalAverageTemperatureFebrurary W loc s).1 = .ok (.nan, .nan)) := by
  have hlen : (lookups W (weatherUris W loc) s).length = 29 := by
    rw [lookups_length, weatherUris_length]
  have hres := weather_result W loc s
  refine ⟨⟨_, _, hres⟩, hlen, by rw [hres], ?_, ?_, ?_, ?_, ?_, ?_⟩
  · intro r hf
    have hn := (lookupFails_iff r).mp hf
    simp [countedTemperature, countedHumidity, hn]
  · intro r part hp ht
    simp [countedTemperature, countedHumidity, hp, ht, celsiusOfField]
  · intro r part f hp ht hh
    simp [countedTemperature, countedHumidity, hp, ht, hh, celsiusOfField, numberOfField,
      JSNum.finite?]
  · intro r part f h hp ht hh
    simp [countedTemperature, countedHumidity, hp, ht, hh, celsiusOfField, numberOfField,
      JSNum.finite?]
  · intro H
    have := counted_lengths W _ H
    rw [hlen] at this
    exact this
  · intro hall
    have h1 : (lookups W (weatherUris W loc) s).filterMap (countedTemperature W) = [] := by
      rw [List.filterMap_eq_nil_iff]
      intro r hr
      simp [countedTemperature, (lookupFails_iff r).mp (hall r hr)]
    have h2 : (lookups W (weatherUris W loc) s).filterMap (countedHumidity W) = [] := by
      rw [List.filterMap_eq_nil_iff]
      intro r hr
      simp [countedHumidity, (lookupFails_iff r).mp (hall r hr)]
    rw [hres, h1, h2]
    rfl

set_option maxRecDepth 100000 in
/-- Witness of C6 (amended): every third live lookup fails, so 10 of the 29 samples are missing
and the averages are those of the 19 complete samples of 68 degrees Fahrenheit and humidity one
half. -/
theorem weather_means_over_counted_samples_witness :
    ((lookups flakyWorld (weatherUris flakyWorld ⟨"1", "2"⟩) emptyState).filterMap
        (countedTemperature flakyWorld)).length +
      (lookups flakyWorld (weatherUris flakyWorld ⟨"1", "2"⟩) emptyState).countP lookupFails
        = 29 ∧
    (lookups flakyWorld (weatherUris flakyWorld ⟨"1", "2"⟩) emptyState).countP lookupFails
        = 10 ∧
    (getCapitalAverageTemperatureFebrurary flakyWorld ⟨"1", "2"⟩ emptyState).1 =
      .ok (.fin 20, .fin (1 / 2)) :=
  ⟨((weather_means_over_counted_samples flakyWorld ⟨"1", "2"⟩ emptyState).2.2.2.2.2.2.2.1
      (by decide!)).1,
   by decide!,
   ((weather_means_over_counted_samples flakyWorld ⟨"1", "2"⟩ emptyState).2.2.1).trans
     (by decide!)⟩

theorem weatherAverages_of_all_fail (W : World) (loc : Coords) (s : State)
    (hall : ∀ r ∈ lookups W (weatherUris W loc) s, lookupFails r = true) :
    ∃ s1, getCapitalAverageTemperatureFebrurary W loc s = (.ok (.nan, .nan), s1) := by
  have hres := weather_result W loc s
  have h1 : (lookups W (weatherUris W loc) s).filterMap (countedTemperature W) = [] := by
    rw [List.filterMap_eq_nil_iff]
    intro r hr
    simp [countedTemperature, (lookupFails_iff r).mp (hall r hr)]
  have h2 : (lookups W (weatherUris W loc) s).filterMap (countedHumidity W) = [] := by
    rw [List.filterMap_eq_nil_iff]
    intro r hr
    simp [countedHumidity, (lookupFails_iff r).mp (hall r hr)]
  rw [h1, h2] at hres
  exact ⟨_, hres⟩

/-! ## Lemmas on the per-entity pipeline and the run -/

theorem processCountry_ok (W : World) (e : Entity) (data : List Row) (s : State) :
    ∃ d s1, processCountry W e data s = (.ok d, s1) := by
  unfold processCountry
  rcases processCountryTry W e data s with ⟨_ | _, s1⟩
  · exact ⟨none, s1, rfl⟩
  · exact ⟨_, s1, rfl⟩

theorem processCountry_summary (W : World) (e : Entity) (data : List Row) (s s1 : State)
    (r : Record) (h : processCountry W e data s = (.ok (some r), s1)) :
    r.median = median (growthRates (rowsOf e.country data)) ∧
      r.mean = mean (growthRates (rowsOf e.country data)) := by
  unfold processCountry processCountryTry at h
  cases hcap : resolveCapital W e.country with
  | error err => simp [hcap] at h
  | ok capital =>
    cases hgeo : W.geocode (capital ++ ", " ++ e.country) with
    | none => simp [hcap, hgeo] at h
    | some loc =>
      cases hg : calculateMedianGrowthRate e.country data with
      | error err => simp [hcap, hgeo, hg] at h
      | ok g =>
        obtain ⟨⟨t, hum⟩, s2, hw⟩ := getCapitalAverageTemperatureFebrurary_ok W loc s
        simp only [hcap, hgeo, hg, hw, Prod.mk.injEq, Except.ok.injEq, Option.some.injEq] at h
        obtain ⟨hr, _⟩ := h
        have hg2 := calculateMedianGrowthRate_ok e.country data g hg
        refine ⟨?_, ?_⟩
        · rw [← hr, hg2]
        · rw [← hr, hg2]

theorem processCountry_of_failsBeforeWeather (W : World) (e : Entity) (data : List Row)
    (s : State) (h : failsBeforeWeather W e.country data = true) :
    processCountry W e data s = (.ok none, s) := by
  unfold failsBeforeWeather at h
  unfold processCountry processCountryTry
  cases hcap : resolveCapital W e.country with
  | error err => rfl
  | ok capital =>
    cases hgeo : W.geocode (capital ++ ", " ++ e.country) with
    | none => simp [hgeo]
    | some loc =>
      cases hg : calculateMedianGrowthRate e.country data with
      | error err => simp [hgeo, hg]
      | ok g => simp [hcap, hgeo, hg] at h

theorem processLoop_acc (W : World) (data : List Row) :
    ∀ (countries : List Entity) (result : List (Option Record)) (s : State),
      processLoop W data countries result s =
        (result ++ (processLoop W data countries [] s).1,
         (processLoop W data countries [] s).2) := by
  intro countries
  induction countries with
  | nil => intro result s; simp [processLoop]
  | cons e rest ih =>
    intro result s
    obtain ⟨d, s1, hd⟩ := processCountry_ok W e data s
    simp only [processLoop, hd, List.nil_append]
    rw [ih (result ++ [d]) s1, ih [d] s1]
    simp

theorem processLoop_cons (W : World) (data : List Row) (e : Entity) (rest : List Entity)
    (s s1 : State) (d : Option Record) (hd : processCountry W e data s = (.ok d, s1)) :
    processLoop W data (e :: rest) [] s =
      (d :: (processLoop W data rest [] s1).1, (processLoop W data rest [] s1).2) := by
  simp only [processLoop, hd, List.nil_append]
  rw [processLoop_acc W data rest [d] s1]
  simp

theorem processLoop_append (W : World) (data : List Row) :
    ∀ (pre post : List Entity) (s : State),
      processLoop W data (pre ++ post) [] s =
        ((processLoop W data pre [] s).1 ++
            (processLoop W data post [] (processLoop W data pre [] s).2).1,
         (processLoop W data post [] (processLoop W data pre [] s).2).2) := by
  intro pre
  induction pre with
  | nil => intro post s; simp [processLoop]
  | cons e rest ih =>
    intro post s
    obtain ⟨d, s1, hd⟩ := processCountry_ok W e data s
    rw [List.cons_append, processLoop_cons W data e (rest ++ post) s s1 d hd,
      processLoop_cons W data e rest s s1 d hd, ih post s1]
    simp

theorem processLoop_mem (W : World) (data : List Row) :
    ∀ (countries : List Entity) (s : State) (r : Record),
      some r ∈ (processLoop W data countries [] s).1 →
        ∃ e ∈ countries, ∃ s1 s2, processCountry W e data s1 = (.ok (some r), s2) := by
  intro countries
  induction countries with
  | nil => intro s r h; simp [processLoop] at h
  | cons e rest ih =>
    intro s r h
    obtain ⟨d, s1, hd⟩ := processCountry_ok W e data s
    rw [processLoop_cons W data e rest s s1 d hd] at h
    rcases List.mem_cons.mp h with h1 | h1
    · exact ⟨e, List.mem_cons_self _ _, s, s1, by rw [hd, ← h1]⟩
    · obtain ⟨e2, he2, t1, t2, ht⟩ := ih s1 r h1
      exact ⟨e2, List.mem_cons_of_mem _ he2, t1, t2, ht⟩

theorem mem_keepValid (result : List (Option Record)) (r : Record) :
    r ∈ keepValid result ↔ some r ∈ result ∧ r.median.isNaN = false := by
  simp [keepValid, List.mem_filter, List.mem_filterMap]

theorem processAll_eq (W : World) (rows : List Row) (s : State) :
    processAll W rows s =
      (keepValid (processLoop W (parseData rows).1 (parseData rows).2 [] s).1,
       (processLoop W (parseData rows).1 (parseData rows).2 [] s).2) := by
  unfold processAll
  rfl

theorem parseData_foldl (rows : List Row) :
    ∀ acc : List Row × List Entity,
      rows.foldl
          (fun acc row =>
            if row.cumulative > 4 then
              (acc.1 ++ [row],
                assignCountry
                  { country := row.entity, city := row.city, totalCases := row.cumulative } acc.2)
            else acc)
          acc =
        (acc.1 ++ rows.filter (fun r => decide (r.cumulative > 4)),
         (rows.filter (fun r => decide (r.cumulative > 4))).foldl
            (fun acc row =>
              assignCountry
                { country := row.entity, city := row.city, totalCases := row.cumulative } acc)
            acc.2) := by
  induction rows with
  | nil => intro acc; simp
  | cons r rest ih =>
    intro acc
    by_cases h : r.cumulative > 4
    · simp [List.foldl_cons, h, ih]
    · simp [List.foldl_cons, h, ih]

theorem parseData_eq (rows : List Row) :
    parseData rows =
      (rows.filter (fun r => decide (r.cumulative > 4)),
       entitiesOf (rows.filter (fun r => decide (r.cumulative > 4)))) := by
  unfold parseData entitiesOf
  rw [parseData_foldl]
  simp

theorem parseData_above_four (rows : List Row) :
    ∀ r ∈ (parseData rows).1, 4 < r.cumulative := by
  intro r hr
  rw [parseData_eq] at hr
  have := (List.mem_filter.mp hr).2
  simpa using this

/-! ## The output properties -/

set_option maxRecDepth 100000 in
/-- C8, as stated, fails.  For fourteen rows whose cumulative counts alternate between 5 and
`3 * 2 ^ 1022` (all above 4, so all are kept at load time) the seven growth values of about
`2.7e307` make the running sum overflow: the record handed to the writer has a finite median and
the mean `Infinity`. -/
theorem record_with_infinite_mean_written :
    (parseData alternatingRows).1 = alternatingRows ∧
    (processAll offlineWorld alternatingRows emptyState).1 =
      [{ country := "X", capital := "Capital", mean := .posInf,
         median := .fin (5404319552844595 * 2 ^ 969), temp := .nan, humid := .nan,
         totalCases := 3 * 2 ^ 1022 }] := by
  decide!

/-- C8, amended: every record of the collection that `processAll` hands to `saveData` is a record
returned by `processCountry` for an entity of the input (never an absent value); its median is a
finite number, and its mean is not `NaN`: it is a finite number, or an infinity when the running
sum of the growth values overflows. -/
theorem output_validity (W : World) (rows : List Row) (s : State) (r : Record)
    (hr : r ∈ (processAll W rows s).1) :
    r.median.isFinite = true ∧ r.median.isNaN = false ∧ r.mean.isNaN = false ∧
    ∃ e ∈ (parseData rows).2, ∃ s1 s2,
      processCountry W e (parseData rows).1 s1 = (.ok (some r), s2) := by
  rw [processAll_eq] at hr
  obtain ⟨hmem, hnan⟩ := (mem_keepValid _ r).mp hr
  obtain ⟨e, he, s1, s2, hp⟩ := processLoop_mem W _ _ s r hmem
  obtain ⟨hmed, hmean⟩ := processCountry_summary W e _ s1 s2 r hp
  have hne : numbers (growthRates (rowsOf e.country (parseData rows).1)) ≠ [] := by
    intro h
    rw [hmed, median_of_no_numbers _ h] at hnan
    exact absurd hnan (by decide)
  have hbound : ∀ x ∈ numbers (growthRates (rowsOf e.country (parseData rows).1)),
      |x| ≤ pow2 1022 := by
    apply growthRates_bound
    intro row hrow
    exact parseData_above_four rows row (List.mem_filter.mp hrow).1
  obtain ⟨m, hm⟩ := median_finite_of_bound _ hne hbound
  have hmn := mean_ne_nan _ hne
  refine ⟨by rw [hmed, hm]; rfl, hnan, ?_, e, he, s1, s2, hp⟩
  rw [hmean]
  cases hmv : mean (growthRates (rowsOf e.country (parseData rows).1)) with
  | nan => exact absurd hmv hmn
  | fin a => rfl
  | posInf => rfl
  | negInf => rfl

set_option maxRecDepth 100000 in
/-- Witness of C8 (amended): the record written for entity `X` with counts 100, 200 when every
live lookup fails. -/
theorem output_validity_witness :
    (⟨"X", "Capital", .fin 1, .fin 1, .nan, .nan, 200⟩ : Record) ∈
      (processAll offlineWorld [rowX 100, rowX 200] emptyState).1 ∧
    (⟨"X", "Capital", .fin 1, .fin 1, .nan, .nan, 200⟩ : Record).median.isFinite = true ∧
    (⟨"X", "Capital", .fin 1, .fin 1, .nan, .nan, 200⟩ : Record).mean.isNaN = false :=
  ⟨by decide!,
   (output_validity offlineWorld [rowX 100, rowX 200] emptyState
      ⟨"X", "Capital", .fin 1, .fin 1, .nan, .nan, 200⟩ (by decide!)).1,
   (output_validity offlineWorld [rowX 100, rowX 200] emptyState
      ⟨"X", "Capital", .fin 1, .fin 1, .nan, .nan, 200⟩ (by decide!)).2.2.1⟩

/-- C7, as stated, fails: entity `X` with counts 100, 200 in a world where all 29 weather lookups
fail is written, with `NaN` as average temperature and as average humidity. -/
theorem record_with_nan_weather_written :
    (∀ r ∈ lookups offlineWorld (weatherUris offlineWorld ⟨"1", "2"⟩) emptyState,
      lookupFails r = true) ∧
    (processAll offlineWorld [rowX 100, rowX 200] emptyState).1 =
      [⟨"X", "Capital", .fin 1, .fin 1, .nan, .nan, 200⟩] := by
  decide!

/-- C7, amended: for every entity for which capital resolution, geocoding and the growth-rate
analysis succeed and all 29 weather lookups fail, `processCountry` returns a record whose average
temperature and average humidity are both `NaN`, and that record is in the collection that
`processAll` hands to the writer exactly when its growth median is not `NaN`. -/
theorem total_weather_failure (W : World) (rows : List Row) (s : State)
    (pre post : List Entity) (e : Entity) (capital : String) (loc : Coords) (g : GrowthSummary)
    (hsplit : (parseData rows).2 = pre ++ e :: post)
    (hcap : resolveCapital W e.country = .ok capital)
    (hgeo : W.geocode (capital ++ ", " ++ e.country) = some loc)
    (hg : calculateMedianGrowthRate e.country (parseData rows).1 = .ok g)
    (hfail : ∀ r ∈ lookups W (weatherUris W loc)
        (processLoop W (parseData rows).1 pre [] s).2, lookupFails r = true) :
    ∃ r s1,
      processCountry W e (parseData rows).1 (processLoop W (parseData rows).1 pre [] s).2
        = (.ok (some r), s1) ∧
      r.temp = .nan ∧ r.humid = .nan ∧ r.median = g.median ∧ r.mean = g.mean ∧
      (r ∈ (processAll W rows s).1 ↔ g.median.isNaN = false) := by
  have hw := ((weatherAverages_of_all_fail W loc
    (processLoop W (parseData rows).1 pre [] s).2) hfail)
  obtain ⟨s1, hw⟩ := hw
  have hp : processCountry W e (parseData rows).1 (processLoop W (parseData rows).1 pre [] s).2
      = (.ok (some { country := e.country, capital := capital, mean := g.mean,
                     median := g.median, temp := .nan, humid := .nan,
                     totalCases := e.totalCases }), s1) := by
    simp only [processCountry, processCountryTry, hcap, hgeo, hg, hw]
  refine ⟨_, s1, hp, rfl, rfl, rfl, rfl, ?_⟩
  rw [processAll_eq, mem_keepValid, hsplit, processLoop_append,
    processLoop_cons W _ e post _ s1 _ hp]
  constructor
  · intro h; exact h.2
  · intro h
    exact ⟨by simp, h⟩

set_option maxRecDepth 100000 in
/-- Witness of C7 (amended): entity `X` with counts 100, 200 when every live lookup fails. -/
theorem total_weather_failure_witness :
    ∃ r s1,
      processCountry offlineWorld ⟨"X", "", 200⟩ (parseData [rowX 100, rowX 200]).1
        (processLoop offlineWorld (parseData [rowX 100, rowX 200]).1 [] [] emptyState).2
        = (.ok (some r), s1) ∧
      r.temp = .nan ∧ r.humid = .nan ∧ r.median = (⟨.fin 1, .fin 1⟩ : GrowthSummary).median ∧
      r.mean = (⟨.fin 1, .fin 1⟩ : GrowthSummary).mean ∧
      (r ∈ (processAll offlineWorld [rowX 100, rowX 200] emptyState).1 ↔
        (⟨.fin 1, .fin 1⟩ : GrowthSummary).median.isNaN = false) :=
  total_weather_failure offlineWorld [rowX 100, rowX 200] emptyState [] [] ⟨"X", "", 200⟩
    "Capital" ⟨"1", "2"⟩ ⟨.fin 1, .fin 1⟩ (by decide!) (by decide) rfl (by decide!) (by decide!)

/-! ## Lemmas on leaving an entity out -/

theorem assignCountry_filter (c : String) (entry : Entity) :
    ∀ acc : List Entity,
      (assignCountry entry acc).filter (fun x => decide (x.country ≠ c)) =
        if entry.country = c then acc.filter (fun x => decide (x.country ≠ c))
        else assignCountry entry (acc.filter (fun x => decide (x.country ≠ c))) := by
  intro acc
  induction acc with
  | nil =>
    by_cases h : entry.country = c <;> simp [assignCountry, h]
  | cons x rest ih =>
    simp only [assignCountry]
    by_cases hx : x.country = entry.country
    · rw [if_pos hx]
      by_cases h : entry.country = c
      · have hxc : x.country = c := hx.trans h
        simp [List.filter_cons, h, hxc]
      · have hxc : ¬ x.country = c := fun hc => h (hx.symm.trans hc)
        simp [List.filter_cons, h, hxc, assignCountry, hx]
    · rw [if_neg hx, List.filter_cons, ih]
      by_cases h : entry.country = c
      · simp only [h, if_true]
        rw [List.filter_cons]
      · simp only [h, if_false]
        by_cases hxc : x.country = c
        · simp [List.filter_cons, hxc]
        · simp [List.filter_cons, hxc, assignCountry, hx]

theorem entities_foldl_filter (c : String) (data : List Row) :
    ∀ acc : List Entity,
      (data.filter (fun r => decide (r.entity ≠ c))).foldl
          (fun acc row =>
            assignCountry
              { country := row.entity, city := row.city, totalCases := row.cumulative } acc)
          (acc.filter (fun x => decide (x.country ≠ c))) =
        (data.foldl
          (fun acc row =>
            assignCountry
              { country := row.entity, city := row.city, totalCases := row.cumulative } acc)
          acc).filter (fun x => decide (x.country ≠ c)) := by
  induction data with
  | nil => intro acc; rfl
  | cons r rest ih =>
    intro acc
    by_cases h : r.entity = c
    · simp only [List.filter_cons, h, ne_eq, not_true_eq_false, decide_False, List.foldl_cons]
      rw [← ih, assignCountry_filter]
      simp [h]
    · simp only [List.filter_cons, h, ne_eq, not_false_eq_true, decide_True, List.foldl_cons,
        if_true]
      rw [← ih, assignCountry_filter]
      simp [h]

theorem parseData_filter (c : String) (rows : List Row) :
    parseData (rows.filter (fun r => decide (r.entity ≠ c))) =
      ((parseData rows).1.filter (fun r => decide (r.entity ≠ c)),
       (parseData rows).2.filter (fun x => decide (x.country ≠ c))) := by
  rw [parseData_eq, parseData_eq]
  have hcomm : (rows.filter (fun r => decide (r.entity ≠ c))).filter
      (fun r => decide (r.cumulative > 4)) =
      (rows.filter (fun r => decide (r.cumulative > 4))).filter
        (fun r => decide (r.entity ≠ c)) := by
    rw [List.filter_filter, List.filter_filter]
    congr 1
    funext r
    exact Bool.and_comm _ _
  rw [hcomm]
  unfold entitiesOf
  have := entities_foldl_filter c (rows.filter (fun r => decide (r.cumulative > 4))) []
  simpa using this

theorem rowsOf_filter_ne (c country : String) (data : List Row) (h : country ≠ c) :
    rowsOf country (data.filter (fun r => decide (r.entity ≠ c))) = rowsOf country data := by
  unfold rowsOf
  rw [List.filter_filter]
  apply List.filter_congr
  intro r _
  by_cases hr : r.entity = country
  · have : r.entity ≠ c := by rw [hr]; exact h
    simp [hr, this, h]
  · simp [hr]

theorem calculateMedianGrowthRate_congr (country : String) (data data2 : List Row)
    (h : rowsOf country data2 = rowsOf country data) :
    calculateMedianGrowthRate country data2 = calculateMedianGrowthRate country data := by
  unfold rowsOf at h
  simp only [calculateMedianGrowthRate, h]

theorem processCountry_congr (W : World) (e : Entity) (data data2 : List Row) (s : State)
    (h : rowsOf e.country data2 = rowsOf e.country data) :
    processCountry W e data2 s = processCountry W e data s := by
  simp only [processCountry, processCountryTry, calculateMedianGrowthRate_congr _ _ _ h]

theorem keepValid_cons_none (l : List (Option Record)) : keepValid (none :: l) = keepValid l := by
  simp [keepValid]

theorem keepValid_cons_congr (d : Option Record) (l1 l2 : List (Option Record))
    (h : keepValid l1 = keepValid l2) : keepValid (d :: l1) = keepValid (d :: l2) := by
  cases d with
  | none => simpa [keepValid_cons_none] using h
  | some r =>
    simp only [keepValid, List.filterMap_cons, id, List.filter_cons] at h ⊢
    rw [h]

theorem processLoop_without (W : World) (c : String) (data : List Row)
    (hfail : failsBeforeWeather W c data = true) :
    ∀ (countries : List Entity) (s : State),
      keepValid (processLoop W data countries [] s).1 =
          keepValid (processLoop W (data.filter (fun r => decide (r.entity ≠ c)))
            (countries.filter (fun x => decide (x.country ≠ c))) [] s).1 ∧
        (processLoop W data countries [] s).2 =
          (processLoop W (data.filter (fun r => decide (r.entity ≠ c)))
            (countries.filter (fun x => decide (x.country ≠ c))) [] s).2 := by
  intro countries
  induction countries with
  | nil => intro s; simp [processLoop]
  | cons e rest ih =>
    intro s
    by_cases he : e.country = c
    · have hp : processCountry W e data s = (.ok none, s) :=
        processCountry_of_failsBeforeWeather W e data s (by rw [he]; exact hfail)
      rw [processLoop_cons W data e rest s s none hp]
      simp only [List.filter_cons, he, ne_eq, not_true_eq_false, decide_False,
        keepValid_cons_none]
      exact ih s
    · obtain ⟨d, s1, hd⟩ := processCountry_ok W e data s
      have hd2 : processCountry W e (data.filter (fun r => decide (r.entity ≠ c))) s
          = (.ok d, s1) := by
        rw [processCountry_congr W e data _ s (rowsOf_filter_ne c e.country data he), hd]
      simp only [List.filter_cons, he, ne_eq, not_false_eq_true, decide_True, if_true]
      rw [processLoop_cons W data e rest s s1 d hd, processLoop_cons W _ e _ s s1 d hd2]
      exact ⟨keepValid_cons_congr d _ _ (ih s1).1, (ih s1).2⟩

/-! ## Failure isolation -/

/-- C9 (failure isolation): `processCountry` never raises; when capital resolution, geocoding or
the growth-rate analysis fails for an entity it returns the absent value and leaves the state
untouched; and `processAll` then produces the same collection (and ends in the same state) as on
the input without the rows of the failing entity. -/
theorem failure_isolation (W : World) (rows : List Row) (s : State) (c : String) :
    (∀ (e : Entity) (data : List Row) (s0 : State),
      ∃ d s1, processCountry W e data s0 = (.ok d, s1)) ∧
    (∀ (e : Entity) (data : List Row) (s0 : State),
      failsBeforeWeather W e.country data = true →
        processCountry W e data s0 = (.ok none, s0)) ∧
    (failsBeforeWeather W c (parseData rows).1 = true →
      processAll W rows s = processAll W (rows.filter (fun r => decide (r.entity ≠ c))) s) := by
  refine ⟨processCountry_ok W, processCountry_of_failsBeforeWeather W, ?_⟩
  intro hfail
  rw [processAll_eq, processAll_eq, parseData_filter]
  obtain ⟨h1, h2⟩ := processLoop_without W c (parseData rows).1 hfail (parseData rows).2 s
  simp only [h1, h2]

set_option maxRecDepth 100000 in
/-- Witness of C9: entity `Y` ends at 50 cases, so its growth-rate analysis fails; the run gives
the same result as the run on the rows of entity `X` alone. -/
theorem failure_isolation_witness :
    processAll offlineWorld [rowX 100, ⟨"Y", 20, ""⟩, rowX 200, ⟨"Y", 50, ""⟩] emptyState =
      processAll offlineWorld
        ([rowX 100, ⟨"Y", 20, ""⟩, rowX 200, ⟨"Y", 50, ""⟩].filter
          (fun r => decide (r.entity ≠ "Y"))) emptyState :=
  (failure_isolation offlineWorld [rowX 100, ⟨"Y", 20, ""⟩, rowX 200, ⟨"Y", 50, ""⟩] emptyState
    "Y").2.2 (by decide!)

end Covid19Temperature
